import Mathlib

/-!
Shallow embedding of the paysentry control-plane core: the Policy Engine
(budget buckets, cooldowns, rule scan, decision combining), the Spend
Ledger tracker, the Dispute Manager, the Recovery Engine retry loop and
the glob matcher, together with a model of the JavaScript runtime pieces
the code leans on (Date / toISOString and RegExp-based wildcard tests).
Amounts are modelled as integers: every property below is about addition
and order only, so nothing depends on fractional values.
-/

namespace PaySentry

/-! ### Association lists modelling JavaScript Map -/

/-- Lookup in an association list (JS Map.get). -/
def alookup {α : Type} : List (String × α) → String → Option α
  | [], _ => none
  | (k', v) :: rest, k => if k' = k then some v else alookup rest k

/-- Insert or replace in an association list (JS Map.set): an existing key
keeps its position, a new key is appended. -/
def aset {α : Type} : List (String × α) → String → α → List (String × α)
  | [], k, v => [(k, v)]
  | (k', v') :: rest, k, v =>
      if k' = k then (k, v) :: rest else (k', v') :: aset rest k v

/-- Add an element to a JS Set modelled as a duplicate-free list
(Set.add: no-op when present, else appended in insertion order). -/
def jsSetAdd (l : List String) (x : String) : List String :=
  if l.contains x then l else l ++ [x]

/-! ### JavaScript Date model

A JS Date is a count of milliseconds since the Unix epoch.  The civil
calendar conversion below models ECMA-262 `Date.prototype.toISOString`
for years 0000-9999 (the range printed in the plain `YYYY-` format).
The day split uses the standard Euclidean-affine calendar algorithms.
-/

/-- Century-of-era and day-of-century from a day-of-era in [0, 146096]. -/
def centurySplit (doe : Int) : Int × Int :=
  let c := (4 * doe + 3) / 146097
  (c, doe - 146097 * c / 4)

/-- Year-of-century and day-of-year from a day-of-century in [0, 36524]. -/
def yearSplit (r : Int) : Int × Int :=
  let yc := (4 * r + 3) / 1461
  (yc, r - 1461 * yc / 4)

/-- Civil month and day-of-month from a day of the March-based year. -/
def monthDayOfDoy (doy : Int) : Int × Int :=
  let mp := (5 * doy + 2) / 153
  let d := doy - (153 * mp + 2) / 5 + 1
  (mp + (if mp < 10 then 3 else -9), d)

/-- Days since the Unix epoch to a proleptic-Gregorian `(year, month, day)`. -/
def civilFromDays (z0 : Int) : Int × Int × Int :=
  let z := z0 + 719468
  let era := z / 146097
  let doe := z % 146097
  let cr := centurySplit doe
  let yd := yearSplit cr.2
  let md := monthDayOfDoy yd.2
  let yoe := 100 * cr.1 + yd.1
  (yoe + era * 400 + (if md.1 ≤ 2 then 1 else 0), md.1, md.2)

/-- Civil `(year, month, day)` back to days since the Unix epoch. -/
def daysFromCivil (y0 m d : Int) : Int :=
  let y := y0 - (if m ≤ 2 then 1 else 0)
  let era := y / 400
  let yoe := y % 400
  let doy := (153 * (m + (if m > 2 then -3 else 9)) + 2) / 5 + d - 1
  let doe := yoe * 365 + yoe / 4 - yoe / 100 + doy
  era * 146097 + doe - 719468

/-- Two decimal digits, zero padded (`String(n).padStart(2, '0')` for n < 100). -/
def pad2 (n : Int) : String :=
  String.mk [Nat.digitChar (n.toNat / 10), Nat.digitChar (n.toNat % 10)]

/-- Three decimal digits, zero padded. -/
def pad3 (n : Int) : String :=
  String.mk [Nat.digitChar (n.toNat / 100), Nat.digitChar (n.toNat / 10 % 10),
    Nat.digitChar (n.toNat % 10)]

/-- Four decimal digits, zero padded. -/
def pad4 (n : Int) : String :=
  String.mk [Nat.digitChar (n.toNat / 1000), Nat.digitChar (n.toNat / 100 % 10),
    Nat.digitChar (n.toNat / 10 % 10), Nat.digitChar (n.toNat % 10)]

/-- Epoch day index of a time value (floor division, as JS UTC getters). -/
def epochDay (t : Int) : Int := t / 86400000

/-- Milliseconds elapsed within the UTC day, in [0, 86399999]. -/
def msOfDay (t : Int) : Int := t % 86400000

/-- `Date.prototype.toISOString` for a millisecond time value whose year
lies in 0000-9999: `YYYY-MM-DDTHH:mm:ss.sssZ`, in UTC. -/
def toISOString (t : Int) : String :=
  let ymd := civilFromDays (epochDay t)
  let msd := msOfDay t
  pad4 ymd.1 ++ "-" ++ pad2 ymd.2.1 ++ "-" ++ pad2 ymd.2.2 ++ "T" ++
    pad2 (msd / 3600000) ++ ":" ++ pad2 (msd % 3600000 / 60000) ++ ":" ++
    pad2 (msd % 60000 / 1000) ++ "." ++ pad3 (msd % 1000) ++ "Z"

/-- `String.prototype.slice(0, n)` for a nonnegative end index. -/
def jsSlice (s : String) (n : Nat) : String := String.mk (s.data.take n)

/-- `Date.prototype.getDay` in a UTC environment: 0 = Sunday .. 6 = Saturday
(epoch day 0 was a Thursday). -/
def jsGetDay (t : Int) : Int := (epochDay t + 4) % 7

/-- Time values whose civil year is printable in the plain 4-digit ISO
format, with a one-week margin so the weekly Monday shift stays in range. -/
def ValidTime (t : Int) : Prop :=
  daysFromCivil 1 1 8 ≤ epochDay t ∧ epochDay t ≤ daysFromCivil 9998 12 31

instance (t : Int) : Decidable (ValidTime t) := by
  unfold ValidTime; infer_instance

/-! ### Glob matcher (packages/core/src/glob.ts)

`matchesGlob` builds an anchored JS RegExp from the pattern: `*` becomes
`.*`, `?` becomes `.`, the regex metacharacters are escaped and every
other character stands for itself.  The JS `.` atom matches every
character except the four line terminators, which the model reflects.
The recursive matcher below decides exactly the language of that
anchored regex (greediness does not matter for a match test).
-/

/-- ECMA-262 line terminators: the characters the RegExp dot never matches. -/
def isLineTerm (c : Char) : Bool :=
  c = '\n' || c = '\r' || c = Char.ofNat 0x2028 || c = Char.ofNat 0x2029

/-- Full-match test of the glob-derived anchored regex: pattern on the
left, candidate value on the right. -/
def globMatch : List Char → List Char → Bool
  | [], [] => true
  | [], _ :: _ => false
  | c :: ps, v =>
    if c = '*' then
      globMatch ps v ||
        (match v with
         | [] => false
         | d :: ds => !isLineTerm d && globMatch (c :: ps) ds)
    else
      match v with
      | [] => false
      | d :: ds => (if c = '?' then !isLineTerm d else c = d) && globMatch ps ds
termination_by p v => p.length + v.length

/-- `matchesGlob(value, pattern)` with the two fast paths of the source. -/
def matchesGlob (value pattern : String) : Bool :=
  if pattern = value then true
  else if pattern = "*" then true
  else globMatch pattern.data value.data

/-- Declarative semantics of the code's wildcard language: `*` consumes
any run of non-line-terminator characters, `?` exactly one
non-line-terminator character, anything else only itself. -/
inductive GlobSem : List Char → List Char → Prop
  | nil : GlobSem [] []
  | lit {c : Char} {p v : List Char} : c ≠ '*' → c ≠ '?' →
      GlobSem p v → GlobSem (c :: p) (c :: v)
  | one {c : Char} {p v : List Char} : isLineTerm c = false →
      GlobSem p v → GlobSem ('?' :: p) (c :: v)
  | starSkip {p v : List Char} : GlobSem p v → GlobSem ('*' :: p) v
  | starCons {c : Char} {p v : List Char} : isLineTerm c = false →
      GlobSem ('*' :: p) v → GlobSem ('*' :: p) (c :: v)

/-- The spec sentence's wildcard semantics, verbatim: `*` matches any run
of zero or more characters and `?` any single character, with no
line-terminator restriction.  Kept separate so the code's behaviour can
be compared against the claim's wording. -/
def claimGlobMatch : List Char → List Char → Bool
  | [], [] => true
  | [], _ :: _ => false
  | c :: ps, v =>
    if c = '*' then
      claimGlobMatch ps v ||
        (match v with
         | [] => false
         | _ :: ds => claimGlobMatch (c :: ps) ds)
    else
      match v with
      | [] => false
      | d :: ds => (if c = '?' then true else c = d) && claimGlobMatch ps ds
termination_by p v => p.length + v.length

/-! ### Transaction model (packages/core)

`AgentTransaction` keeps the fields the Policy Engine, tracker and
managers read.  `createdAt` is the parsed `new Date(tx.createdAt)` value
in epoch milliseconds; string-valued fields that the engines only
compare for equality stay opaque strings. -/

structure AgentTransaction where
  id : String
  agentId : String
  recipient : String
  amount : Int
  currency : String
  purpose : String
  protocol : String
  status : String
  service : Option String
  metadata : List (String × String)
  createdAt : Int
deriving DecidableEq, Repr

/-! ### Policy Engine (policy.ts) -/

/-- Rule actions, a closed enumeration. -/
inductive RuleAction
  | allow
  | flag
  | require_approval
  | deny
deriving DecidableEq, Repr

/-- Budget window kinds. -/
inductive BudgetWindow
  | per_transaction
  | hourly
  | daily
  | weekly
  | monthly
deriving DecidableEq, Repr

/-- The string a `BudgetWindow` interpolates to. -/
def windowName : BudgetWindow → String
  | .per_transaction => "per_transaction"
  | .hourly => "hourly"
  | .daily => "daily"
  | .weekly => "weekly"
  | .monthly => "monthly"

/-- A budget limit.  An empty `agentIds` / `serviceIds` list models both an
absent and an empty JS array: `budget.agentIds?.length` is falsy for
both, so the filter is skipped identically. -/
structure BudgetLimit where
  window : BudgetWindow
  maxAmount : Int
  currency : Option String
  agentIds : List String
  serviceIds : List String
deriving DecidableEq, Repr

/-- Rule conditions; AND of the present fields, empty list = absent. -/
structure RuleConditions where
  agents : List String
  recipients : List String
  services : List String
  protocols : List String
  minAmount : Option Int
  maxAmount : Option Int
  currencies : List String
  metadata : List (String × String)
deriving DecidableEq, Repr

structure SpendRule where
  id : String
  name : String
  enabled : Bool
  priority : Int
  conditions : RuleConditions
  action : RuleAction
deriving DecidableEq, Repr

/-- A spend policy.  `cooldownMs = some 0` behaves like `none` because
`!policy.cooldownMs` is truthy for `0` in the source. -/
structure SpendPolicy where
  id : String
  name : String
  enabled : Bool
  rules : List SpendRule
  budgets : List BudgetLimit
  cooldownMs : Option Int
deriving DecidableEq, Repr

structure SpendBucket where
  key : String
  amount : Int
  count : Int
deriving DecidableEq, Repr

/-- A heterogeneous detail value of a decision's details map. -/
inductive DetailValue
  | str : String → DetailValue
  | int : Int → DetailValue
  | win : BudgetWindow → DetailValue
  | act : RuleAction → DetailValue
deriving DecidableEq, Repr

structure PolicyDecision where
  allowed : Bool
  action : RuleAction
  reason : String
  triggeredRule : Option SpendRule
  details : List (String × DetailValue)
deriving DecidableEq, Repr

/-- Mutable engine state: loaded policies in Map insertion order, spend
buckets and per-agent last-transaction times (epoch ms). -/
structure EngineState where
  policies : List SpendPolicy
  spendBuckets : List (String × SpendBucket)
  lastTransactionTime : List (String × Int)
deriving DecidableEq, Repr

/-- Stand-in for the JS template interpolation of an (integral) amount:
`(n).toFixed(2)` prints two zero decimals for integers. -/
def fmtAmount (n : Int) : String := toString n ++ ".00"

/-- Window key of a bucket (`getWindowKey`): the untruncated ISO string
for `per_transaction`, else a slice of the ISO string; the weekly case
shifts to the ISO-week Monday via `getDay`/`setDate` before slicing. -/
def getWindowKey (w : BudgetWindow) (t : Int) : String :=
  match w with
  | .per_transaction => toISOString t
  | .hourly => jsSlice (toISOString t) 13
  | .daily => jsSlice (toISOString t) 10
  | .weekly =>
      let day := jsGetDay t
      let mondayOffset := if day = 0 then -6 else 1 - day
      jsSlice (toISOString (t + mondayOffset * 86400000)) 10
  | .monthly => jsSlice (toISOString t) 7

/-- Deterministic serialization of a budget's scope (`getBudgetScope`). -/
def getBudgetScope (b : BudgetLimit) : String :=
  let parts :=
    (if b.agentIds.isEmpty then [] else ["agents:" ++ String.intercalate "," b.agentIds]) ++
    (if b.serviceIds.isEmpty then [] else ["services:" ++ String.intercalate "," b.serviceIds]) ++
    (match b.currency with
     | some c => ["currency:" ++ c]
     | none => [])
  if parts.isEmpty then "global" else String.intercalate "|" parts

/-- Bucket key: `policyId:scope:window:windowKey`, the window key taken
from `new Date(tx.createdAt)`. -/
def getBudgetBucketKey (policyId : String) (b : BudgetLimit) (tx : AgentTransaction) : String :=
  policyId ++ ":" ++ getBudgetScope b ++ ":" ++ windowName b.window ++ ":" ++
    getWindowKey b.window tx.createdAt

/-- The three `continue` filters of the budget loops: currency, agent
scope and service scope. -/
def budgetMatches (b : BudgetLimit) (tx : AgentTransaction) : Bool :=
  (match b.currency with
   | some c => c = tx.currency
   | none => true) &&
  (b.agentIds.isEmpty || b.agentIds.contains tx.agentId) &&
  (b.serviceIds.isEmpty ||
    (match tx.service with
     | some s => b.serviceIds.contains s
     | none => false))

/-- Current amount of the bucket addressed by `key`, zero when absent. -/
def bucketAmount (st : EngineState) (key : String) : Int :=
  match alookup st.spendBuckets key with
  | some b => b.amount
  | none => 0

/-- The deny decision built for the first violated budget. -/
def budgetDenyDecision (p : SpendPolicy) (b : BudgetLimit)
    (currentAmount projectedAmount : Int) (tx : AgentTransaction) : PolicyDecision :=
  { allowed := false
    action := .deny
    reason := windowName b.window ++ " budget exceeded: $" ++ fmtAmount projectedAmount ++
      " would exceed limit of $" ++ toString b.maxAmount ++
      (match b.currency with
       | some c => " " ++ c
       | none => "")
    triggeredRule := none
    details := [("policyId", .str p.id), ("policyName", .str p.name),
      ("budgetWindow", .win b.window), ("currentSpend", .int currentAmount),
      ("transactionAmount", .int tx.amount), ("projectedSpend", .int projectedAmount),
      ("limit", .int b.maxAmount)] }

/-- Budget scan of one policy (`evaluateBudgets`): the first matching
budget whose projected spend strictly exceeds `maxAmount` produces a
deny; otherwise the scan continues and finally yields nothing. -/
def evaluateBudgetList (st : EngineState) (p : SpendPolicy) (tx : AgentTransaction) :
    List BudgetLimit → Option PolicyDecision
  | [] => none
  | b :: rest =>
      if budgetMatches b tx then
        let currentAmount := bucketAmount st (getBudgetBucketKey p.id b tx)
        let projectedAmount := currentAmount + tx.amount
        if projectedAmount > b.maxAmount then
          some (budgetDenyDecision p b currentAmount projectedAmount tx)
        else
          evaluateBudgetList st p tx rest
      else
        evaluateBudgetList st p tx rest

def evaluateBudgets (st : EngineState) (p : SpendPolicy) (tx : AgentTransaction) :
    Option PolicyDecision :=
  evaluateBudgetList st p tx p.budgets

/-- The deny decision of an active cooldown. -/
def cooldownDenyDecision (p : SpendPolicy) (cooldownMs elapsed : Int) : PolicyDecision :=
  { allowed := false
    action := .deny
    reason := "Cooldown active: " ++ toString (cooldownMs - elapsed) ++
      "ms remaining (minimum " ++ toString cooldownMs ++ "ms between transactions)"
    triggeredRule := none
    details := [("policyId", .str p.id), ("policyName", .str p.name),
      ("elapsed", .int elapsed), ("required", .int cooldownMs),
      ("remainingMs", .int (cooldownMs - elapsed))] }

/-- Cooldown check (`evaluateCooldown`): deny while the elapsed time since
the agent's last recorded transaction is strictly below `cooldownMs`. -/
def evaluateCooldown (st : EngineState) (now : Int) (p : SpendPolicy)
    (tx : AgentTransaction) : Option PolicyDecision :=
  match p.cooldownMs with
  | none => none
  | some cd =>
      if cd = 0 then none
      else
        match alookup st.lastTransactionTime tx.agentId with
        | none => none
        | some lastTime =>
            let elapsed := now - lastTime
            if elapsed < cd then some (cooldownDenyDecision p cd elapsed) else none

/-- Condition matching (`matchesConditions`): AND of the present fields. -/
def matchesConditions (tx : AgentTransaction) (r : SpendRule) : Bool :=
  let cond := r.conditions
  (cond.agents.isEmpty || cond.agents.any (fun pat => matchesGlob tx.agentId pat)) &&
  (cond.recipients.isEmpty || cond.recipients.any (fun pat => matchesGlob tx.recipient pat)) &&
  (cond.services.isEmpty ||
    (match tx.service with
     | some s => cond.services.any (fun x => x = s)
     | none => false)) &&
  (cond.protocols.isEmpty || cond.protocols.any (fun x => x = tx.protocol)) &&
  (match cond.minAmount with
   | some m => tx.amount ≥ m
   | none => true) &&
  (match cond.maxAmount with
   | some m => tx.amount ≤ m
   | none => true) &&
  (cond.currencies.isEmpty || cond.currencies.any (fun x => x = tx.currency)) &&
  (cond.metadata.all (fun kv => alookup tx.metadata kv.1 = some kv.2))

/-- The string a `RuleAction` interpolates to. -/
def actionName : RuleAction → String
  | .allow => "allow"
  | .flag => "flag"
  | .require_approval => "require_approval"
  | .deny => "deny"

/-- Rule scan (`evaluateRules`): enabled rules stably sorted by ascending
priority; the first whose conditions match fires, else default allow. -/
def evaluateRules (p : SpendPolicy) (tx : AgentTransaction) : PolicyDecision :=
  let sortedRules := List.insertionSort (fun a b : SpendRule => a.priority ≤ b.priority)
    (p.rules.filter (·.enabled))
  match sortedRules.find? (fun r => matchesConditions tx r) with
  | some r =>
      { allowed := r.action = .allow || r.action = .flag
        action := r.action
        reason := "Rule \"" ++ r.name ++ "\" matched: action=" ++ actionName r.action
        triggeredRule := some r
        details := [("policyId", .str p.id), ("policyName", .str p.name),
          ("ruleId", .str r.id), ("ruleName", .str r.name), ("ruleAction", .act r.action)] }
  | none =>
      { allowed := true
        action := .allow
        reason := "No rules matched in policy \"" ++ p.name ++ "\" — allowing by default"
        triggeredRule := none
        details := [("policyId", .str p.id), ("policyName", .str p.name)] }

/-- Severity rank: deny(0) < require_approval(1) < flag(2) < allow(3). -/
def actionSeverity : RuleAction → Int
  | .deny => 0
  | .require_approval => 1
  | .flag => 2
  | .allow => 3

/-- `getMostRestrictive`: head of the stable severity sort of the
per-policy results. -/
def getMostRestrictive (results : List PolicyDecision) : Option PolicyDecision :=
  (List.insertionSort (fun a b : PolicyDecision =>
    actionSeverity a.action ≤ actionSeverity b.action) results).head?

/-- One decision per enabled policy: budget deny, else cooldown deny,
else the rule scan result. -/
def policyDecision (st : EngineState) (now : Int) (p : SpendPolicy)
    (tx : AgentTransaction) : PolicyDecision :=
  match evaluateBudgets st p tx with
  | some r => r
  | none =>
      match evaluateCooldown st now p tx with
      | some r => r
      | none => evaluateRules p tx

/-- The per-policy decision list collected by `evaluate`. -/
def perPolicyDecisions (st : EngineState) (now : Int) (tx : AgentTransaction) :
    List PolicyDecision :=
  (st.policies.filter (·.enabled)).map (fun p => policyDecision st now p tx)

/-- The default decision when no enabled policy produced a result. -/
def noPoliciesDecision : PolicyDecision :=
  { allowed := true
    action := .allow
    reason := "No policies loaded — allowing by default"
    triggeredRule := none
    details := [] }

/-- `evaluate`: most restrictive of the per-policy decisions, or the
default allow when there are none. -/
def evaluate (st : EngineState) (now : Int) (tx : AgentTransaction) : PolicyDecision :=
  match getMostRestrictive (perPolicyDecisions st now tx) with
  | some r => r
  | none => noPoliciesDecision

/-- Bucket update of `recordTransaction` for a single matching budget. -/
def bumpBucket (buckets : List (String × SpendBucket)) (key : String) (amount : Int) :
    List (String × SpendBucket) :=
  let bucket :=
    match alookup buckets key with
    | some b => b
    | none => { key := key, amount := 0, count := 0 }
  aset buckets key { bucket with amount := bucket.amount + amount, count := bucket.count + 1 }

/-- The inner budget loop of `recordTransaction`: bump the bucket of every
budget whose filters match. -/
def recordBudgetStep (policyId : String) (tx : AgentTransaction) (s : EngineState)
    (b : BudgetLimit) : EngineState :=
  if budgetMatches b tx then
    { s with spendBuckets := bumpBucket s.spendBuckets (getBudgetBucketKey policyId b tx) tx.amount }
  else s

/-- One policy iteration of `recordTransaction`: skip disabled policies,
run the budget loop, then stamp the agent's last-transaction time. -/
def recordPolicyStep (now : Int) (tx : AgentTransaction) (s : EngineState)
    (p : SpendPolicy) : EngineState :=
  if p.enabled then
    let s1 := p.budgets.foldl (recordBudgetStep p.id tx) s
    { s1 with lastTransactionTime := aset s1.lastTransactionTime tx.agentId now }
  else s

/-- `recordTransaction`: for every enabled policy, bump the bucket of every
budget whose filters match, then stamp the agent's last-transaction
time.  No decision is consulted. -/
def recordTransaction (st : EngineState) (now : Int) (tx : AgentTransaction) : EngineState :=
  st.policies.foldl (recordPolicyStep now tx) st

/-! ### Spend Tracker (packages/observe/src/tracker.ts) -/

/-- Tracker state: primary Map, the three secondary Set indices and the
chronological insertion-order list. -/
structure TrackerState where
  transactions : List (String × AgentTransaction)
  byAgent : List (String × List String)
  byService : List (String × List String)
  byRecipient : List (String × List String)
  chronological : List String
deriving DecidableEq, Repr

def emptyTracker : TrackerState :=
  { transactions := [], byAgent := [], byService := [], byRecipient := [],
    chronological := [] }

/-- `addToIndex`: get-or-create the Set for the key and add the id. -/
def addToIndex (index : List (String × List String)) (key txId : String) :
    List (String × List String) :=
  match alookup index key with
  | some s => aset index key (jsSetAdd s txId)
  | none => aset index key [txId]

/-- `record`: replace the primary entry; on a first-seen id also update
the three indices and append to the chronological list. -/
def record (st : TrackerState) (tx : AgentTransaction) : TrackerState :=
  let isUpdate := (alookup st.transactions tx.id).isSome
  let st1 := { st with transactions := aset st.transactions tx.id tx }
  if isUpdate then st1
  else
    { st1 with
      byAgent := addToIndex st1.byAgent tx.agentId tx.id
      byRecipient := addToIndex st1.byRecipient tx.recipient tx.id
      byService :=
        match tx.service with
        | some s => addToIndex st1.byService s tx.id
        | none => st1.byService
      chronological := st1.chronological ++ [tx.id] }

/-- Ids held by an index at a key (empty when the key is absent). -/
def indexIds (index : List (String × List String)) (key : String) : List String :=
  match alookup index key with
  | some s => s
  | none => []

/-- Replay a list of `record` calls against the empty tracker. -/
def applyRecords (txs : List AgentTransaction) : TrackerState :=
  txs.foldl record emptyTracker

/-- The first transaction of a history carrying a given id: the one whose
field values the secondary indices saw. -/
def firstWith (txs : List AgentTransaction) (id : String) : Option AgentTransaction :=
  txs.find? (fun t => t.id = id)

/-- The last transaction of a history carrying a given id: the one the
primary Map stores after the replay. -/
def lastWith (txs : List AgentTransaction) (id : String) : Option AgentTransaction :=
  txs.reverse.find? (fun t => t.id = id)

/-! ### Dispute Manager (packages/protect/src/disputes.ts)

Modelled without a configured provenance log (`options.provenance`
undefined), which changes no behaviour of the operations below other
than skipping the provenance evidence pull.  Fresh dispute ids and
`new Date().toISOString()` stamps are explicit parameters, and fallible
operations return `Except` with the thrown message. -/

/-- Dispute statuses; `open_case` and `resolvedPartial` stand for the
source strings "open" and "resolved_partial". -/
inductive DisputeStatus
  | open_case
  | investigating
  | resolved_refunded
  | resolved_denied
  | resolvedPartial
  | escalated
deriving DecidableEq, Repr

inductive LiabilityAttribution
  | agent
  | service_provider
  | protocol
  | user
  | undetermined
deriving DecidableEq, Repr

structure DisputeEvidence where
  etype : String
  description : String
  addedAt : String
deriving DecidableEq, Repr

structure DisputeCase where
  id : String
  transactionId : String
  agentId : String
  reason : String
  status : DisputeStatus
  liability : LiabilityAttribution
  requestedAmount : Int
  resolvedAmount : Option Int
  createdAt : String
  updatedAt : String
  resolvedAt : Option String
  evidence : List DisputeEvidence
deriving DecidableEq, Repr

structure FileDisputeInput where
  transactionId : String
  agentId : String
  reason : String
  requestedAmount : Int
  evidence : List DisputeEvidence
deriving DecidableEq, Repr

/-- Manager state: disputes by id, the transaction index holding a single
dispute id per transaction, and the per-agent Set index. -/
structure DisputeManagerState where
  disputes : List (String × DisputeCase)
  byTransaction : List (String × String)
  byAgent : List (String × List String)
deriving DecidableEq, Repr

/-- `isClosed`: the three resolved statuses. -/
def isClosed : DisputeStatus → Bool
  | .resolved_refunded => true
  | .resolved_denied => true
  | .resolvedPartial => true
  | _ => false

/-- `file`: reject when a non-closed dispute exists for the transaction,
else create the dispute (status `open`, liability `undetermined`),
overwrite the transaction index and add to the agent index.  `newId` is
the generated dispute id and `now` the ISO timestamp. -/
def fileDispute (st : DisputeManagerState) (now newId : String)
    (input : FileDisputeInput) : Except String (DisputeCase × DisputeManagerState) := do
  match alookup st.byTransaction input.transactionId with
  | some existingId =>
      match alookup st.disputes existingId with
      | some existingCase =>
          if !isClosed existingCase.status then
            throw ("Active dispute " ++ existingId ++ " already exists for transaction " ++
              input.transactionId)
          else
            pure ()
      | none => pure ()
  | none => pure ()
  let dispute : DisputeCase :=
    { id := newId
      transactionId := input.transactionId
      agentId := input.agentId
      reason := input.reason
      status := .open_case
      liability := .undetermined
      requestedAmount := input.requestedAmount
      resolvedAmount := none
      createdAt := now
      updatedAt := now
      resolvedAt := none
      evidence := input.evidence }
  pure (dispute,
    { disputes := aset st.disputes newId dispute
      byTransaction := aset st.byTransaction input.transactionId newId
      byAgent := addToIndex st.byAgent input.agentId newId })

/-- `addEvidence`: throws on an unknown id and on a closed dispute (before
any mutation), else appends the evidence and stamps `updatedAt`. -/
def addEvidence (st : DisputeManagerState) (now disputeId : String)
    (ev : DisputeEvidence) : Except String DisputeManagerState := do
  match alookup st.disputes disputeId with
  | none => throw ("Dispute " ++ disputeId ++ " not found")
  | some dispute =>
      if isClosed dispute.status then
        throw ("Cannot add evidence to closed dispute " ++ disputeId)
      else
        let updated := { dispute with evidence := dispute.evidence ++ [ev], updatedAt := now }
        pure { st with disputes := aset st.disputes disputeId updated }

/-- `updateStatus`: throws only on an unknown id; otherwise the status is
replaced unconditionally (closed disputes included) and the previous
status is reported to listeners. -/
def updateStatus (st : DisputeManagerState) (now disputeId : String)
    (newStatus : DisputeStatus) : Except String (DisputeManagerState × DisputeStatus) := do
  match alookup st.disputes disputeId with
  | none => throw ("Dispute " ++ disputeId ++ " not found")
  | some dispute =>
      let updated := { dispute with status := newStatus, updatedAt := now }
      pure ({ st with disputes := aset st.disputes disputeId updated }, dispute.status)

/-- `getByTransaction`: resolve the single indexed dispute id. -/
def getByTransaction (st : DisputeManagerState) (txId : String) : Option DisputeCase :=
  match alookup st.byTransaction txId with
  | some disputeId => alookup st.disputes disputeId
  | none => none

/-- `get`: primary lookup. -/
def getDispute (st : DisputeManagerState) (disputeId : String) : Option DisputeCase :=
  alookup st.disputes disputeId

/-- `query` restricted to a transaction filter: scan all disputes, keep
the matching ones, newest `createdAt` first (stable). -/
def queryByTransaction (st : DisputeManagerState) (txId : String) : List DisputeCase :=
  List.insertionSort (fun a b : DisputeCase => b.createdAt ≤ a.createdAt)
    ((st.disputes.map (·.2)).filter (fun d => d.transactionId = txId))

/-! ### Recovery Engine retry loop (recovery.ts) -/

/-- One executor call's outcome: `{success:true}` with an optional refund
tx id, `{success:false}` with an optional error, or a thrown error. -/
inductive ExecOutcome
  | success : Option String → ExecOutcome
  | failure : Option String → ExecOutcome
  | thrown : String → ExecOutcome
deriving DecidableEq, Repr

def ExecOutcome.isSuccess : ExecOutcome → Bool
  | .success _ => true
  | _ => false

inductive RecoveryStatus
  | pending
  | processing
  | completed
  | failed
  | cancelled
deriving DecidableEq, Repr

/-- Observable outcome of `executeWithRetry` on one action: how often the
executor ran, the backoff waits performed (in order), and the final
action fields. -/
structure RetryTrace where
  calls : Nat
  waits : List Int
  status : RecoveryStatus
  refundTxId : Option String
  error : Option String
deriving DecidableEq, Repr

/-- The error message captured for a `{success:false}` reply
(`result.error ?? 'Refund execution returned failure'`). -/
def failureMsg : Option String → String
  | some msg => msg
  | none => "Refund execution returned failure"

/-- The `for (attempt = 1; attempt <= maxRetries; attempt++)` loop: run the
executor, return `completed` on success, otherwise record the error and
wait `retryDelayMs * attempt` unless this was the last attempt; after
the loop the action is `failed`. -/
def retryLoop (exec : Nat → ExecOutcome) (retryDelayMs : Int) (maxRetries : Nat) :
    Nat → Nat → Option String → RetryTrace
  | 0, _, err => { calls := 0, waits := [], status := .failed, refundTxId := none, error := err }
  | remaining + 1, attempt, err =>
      match exec attempt with
      | .success rid =>
          { calls := 1, waits := [], status := .completed, refundTxId := rid, error := err }
      | .failure e =>
          let tail := retryLoop exec retryDelayMs maxRetries remaining (attempt + 1)
            (some (failureMsg e))
          let tail1 := { tail with calls := tail.calls + 1 }
          if attempt < maxRetries then
            { tail1 with waits := retryDelayMs * (attempt : Int) :: tail1.waits }
          else
            tail1
      | .thrown msg =>
          let tail := retryLoop exec retryDelayMs maxRetries remaining (attempt + 1) (some msg)
          let tail1 := { tail with calls := tail.calls + 1 }
          if attempt < maxRetries then
            { tail1 with waits := retryDelayMs * (attempt : Int) :: tail1.waits }
          else
            tail1

/-- `executeWithRetry` for a single queued action. -/
def executeWithRetry (exec : Nat → ExecOutcome) (retryDelayMs : Int) (maxRetries : Nat) :
    RetryTrace :=
  retryLoop exec retryDelayMs maxRetries maxRetries 1 none

/-- A queued recovery action as `processQueue` sees it. -/
structure QueuedAction where
  id : String
  status : RecoveryStatus
deriving DecidableEq, Repr

/-- `processQueue`: drain the FIFO queue, skip cancelled actions, run each
remaining one through `executeWithRetry`. -/
def processQueue (queue : List QueuedAction) (exec : String → Nat → ExecOutcome)
    (retryDelayMs : Int) (maxRetries : Nat) : List (String × RetryTrace) :=
  (queue.filter (fun a => a.status ≠ .cancelled)).map
    (fun a => (a.id, executeWithRetry (exec a.id) retryDelayMs maxRetries))

/-! ### Concrete fixtures for witnesses and counterexamples -/

/-- A daily 50-USDC budget with no agent or service scope. -/
def budgetDaily50 : BudgetLimit :=
  { window := .daily, maxAmount := 50, currency := some "USDC", agentIds := [], serviceIds := [] }

/-- A daily 150-USDC budget with no agent or service scope. -/
def budgetDaily150 : BudgetLimit :=
  { window := .daily, maxAmount := 150, currency := some "USDC", agentIds := [], serviceIds := [] }

/-- A rule-free policy whose only control is the 50-USDC daily budget. -/
def policyBudget50 : SpendPolicy :=
  { id := "p1", name := "Spending caps", enabled := true, rules := [],
    budgets := [budgetDaily50], cooldownMs := none }

/-- A rule-free policy whose only control is the 150-USDC daily budget. -/
def policyBudget150 : SpendPolicy :=
  { id := "p1", name := "Spending caps", enabled := true, rules := [],
    budgets := [budgetDaily150], cooldownMs := none }

/-- A budget-free policy with a one-minute per-agent cooldown. -/
def policyCooldown : SpendPolicy :=
  { id := "p2", name := "Cooldown only", enabled := true, rules := [],
    budgets := [], cooldownMs := some 60000 }

/-- A 100-USDC transaction created at 2024-10-04T00:00:00Z. -/
def txBig : AgentTransaction :=
  { id := "tx1", agentId := "agent-1", recipient := "api.example.com", amount := 100,
    currency := "USDC", purpose := "data", protocol := "x402", status := "pending",
    service := none, metadata := [], createdAt := 1728000000000 }

/-- Engine with the 50-USDC-budget policy and empty counters. -/
def stBudget : EngineState :=
  { policies := [policyBudget50], spendBuckets := [], lastTransactionTime := [] }

/-- Engine with the 150-USDC-budget policy and 50 USDC already settled in
the day's bucket. -/
def stBoundary : EngineState :=
  { policies := [policyBudget150]
    spendBuckets := [(getBudgetBucketKey "p1" budgetDaily150 txBig,
      { key := getBudgetBucketKey "p1" budgetDaily150 txBig, amount := 50, count := 1 })]
    lastTransactionTime := [] }

/-- Engine with the cooldown policy and a transaction recorded for
agent-1 at 2024-10-04T00:00:00Z. -/
def stCooldown : EngineState :=
  { policies := [policyCooldown], spendBuckets := []
    lastTransactionTime := [("agent-1", 1728000000000)] }

/-- Engine with no policies loaded. -/
def stEmpty : EngineState :=
  { policies := [], spendBuckets := [], lastTransactionTime := [] }


/-- Two records with the same id but different agents: the update keeps
the stale by-agent index entry. -/
def txA1 : AgentTransaction :=
  { txBig with id := "t1", agentId := "A" }

/-- The update of `txA1` that moves the transaction to agent B. -/
def txA2 : AgentTransaction :=
  { txBig with id := "t1", agentId := "B", status := "completed" }

/-- A closed (resolved-denied) dispute for transaction tx1. -/
def disputeClosed : DisputeCase :=
  { id := "d1", transactionId := "tx1", agentId := "agent-1"
    reason := "service not delivered", status := .resolved_denied
    liability := .service_provider, requestedAmount := 25, resolvedAmount := some 0
    createdAt := "2026-01-01T00:00:00.000Z", updatedAt := "2026-01-02T00:00:00.000Z"
    resolvedAt := some "2026-01-02T00:00:00.000Z", evidence := [] }

/-- The closed dispute after `updateStatus` moves it back to open. -/
def disputeReopened : DisputeCase :=
  { disputeClosed with status := .open_case, updatedAt := "2026-01-04T00:00:00.000Z" }

/-- Manager state holding only the closed dispute. -/
def stDisputes : DisputeManagerState :=
  { disputes := [("d1", disputeClosed)]
    byTransaction := [("tx1", "d1")]
    byAgent := [("agent-1", ["d1"])] }

/-- A piece of user evidence. -/
def evidX : DisputeEvidence :=
  { etype := "user_statement", description := "got 404 from service"
    addedAt := "2026-01-03T00:00:00.000Z" }

/-- Input for filing a second dispute on tx1. -/
def inputX : FileDisputeInput :=
  { transactionId := "tx1", agentId := "agent-1", reason := "charged twice"
    requestedAmount := 25, evidence := [evidX] }

/-- The record `updateStatus` writes back: new status, stamped update. -/
def withStatus (d : DisputeCase) (s2 : DisputeStatus) (now : String) : DisputeCase :=
  { d with status := s2, updatedAt := now }

/-- Manager state after the counterexample reopens d1. -/
def stReopened : DisputeManagerState :=
  { disputes := [("d1", disputeReopened)]
    byTransaction := [("tx1", "d1")]
    byAgent := [("agent-1", ["d1"])] }

/-- The dispute record `file` constructs. -/
def newDisputeOf (now newId : String) (input : FileDisputeInput) : DisputeCase :=
  { id := newId, transactionId := input.transactionId, agentId := input.agentId
    reason := input.reason, status := .open_case, liability := .undetermined
    requestedAmount := input.requestedAmount, resolvedAmount := none
    createdAt := now, updatedAt := now, resolvedAt := none
    evidence := input.evidence }

/-- Executor that succeeds on the second attempt. -/
def execSecond : Nat → ExecOutcome :=
  fun i => if i = 2 then .success (some "0xrefund") else .failure none

/-- Executor that always reports failure. -/
def execNever : Nat → ExecOutcome := fun _ => .failure (some "insufficient liquidity")


/-! ### Window index and key-shape helpers for the window-key theorems -/

/-- UTC hour index of a time value. -/
def hourIndex (t : Int) : Int := t / 3600000

/-- Epoch day of the ISO-week Monday of an epoch day (the
`getDay`/`setDate` shift of the weekly case, on day numbers). -/
def mondayOf (z : Int) : Int :=
  z + (if (z + 4) % 7 = 0 then -6 else 1 - (z + 4) % 7)

/-- Month counter `12 * year + (month - 1)` of a time value's civil date. -/
def monthIndex (t : Int) : Int :=
  12 * (civilFromDays (epochDay t)).1 + ((civilFromDays (epochDay t)).2.1 - 1)

/-- The `YYYY-MM-DD` shape. -/
def dateKeyOf (y m d : Int) : String := pad4 y ++ "-" ++ pad2 m ++ "-" ++ pad2 d

/-- The `YYYY-MM` shape. -/
def monthKeyOf (y m : Int) : String := pad4 y ++ "-" ++ pad2 m

/-- The `YYYY-MM-DDTHH` shape. -/
def hourKeyOf (y m d hr : Int) : String := dateKeyOf y m d ++ "T" ++ pad2 hr

/-! ## Theorems

Supporting lemmas first (calendar arithmetic, digit strings, sorting and
association lists), then one theorem per claim with its witness or
counterexample. -/

theorem centurySplit_spec (doe : Int) (h0 : 0 ≤ doe) (h1 : doe ≤ 146096) :
    0 ≤ (centurySplit doe).1 ∧ (centurySplit doe).1 ≤ 3 ∧
    0 ≤ (centurySplit doe).2 ∧ (centurySplit doe).2 ≤ 36524 ∧
    36524 * (centurySplit doe).1 + (centurySplit doe).2 = doe := by
  simp only [centurySplit]
  omega

theorem yearSplit_spec (r : Int) (h0 : 0 ≤ r) (h1 : r ≤ 36524) :
    0 ≤ (yearSplit r).1 ∧ (yearSplit r).1 ≤ 99 ∧
    0 ≤ (yearSplit r).2 ∧ (yearSplit r).2 ≤ 365 ∧
    365 * (yearSplit r).1 + (yearSplit r).1 / 4 + (yearSplit r).2 = r := by
  simp only [yearSplit]
  omega

theorem monthDayOfDoy_spec (doy : Int) (h0 : 0 ≤ doy) (h1 : doy ≤ 365) :
    1 ≤ (monthDayOfDoy doy).1 ∧ (monthDayOfDoy doy).1 ≤ 12 ∧
    1 ≤ (monthDayOfDoy doy).2 ∧ (monthDayOfDoy doy).2 ≤ 31 ∧
    ((monthDayOfDoy doy).1 ≤ 2 →
      (153 * ((monthDayOfDoy doy).1 + 9) + 2) / 5 + (monthDayOfDoy doy).2 - 1 = doy) ∧
    (2 < (monthDayOfDoy doy).1 →
      (153 * ((monthDayOfDoy doy).1 - 3) + 2) / 5 + (monthDayOfDoy doy).2 - 1 = doy) := by
  simp only [monthDayOfDoy]
  split <;> omega

theorem daysFromCivil_assemble (era cent yc d4 doy m dom z : Int)
    (hz : z + 719468 = 146097 * era + 36524 * cent + 365 * yc + d4 + doy)
    (hc : 0 ≤ cent ∧ cent ≤ 3)
    (hy : 0 ≤ yc ∧ yc ≤ 99) (hd4 : 0 ≤ yc - 4 * d4 ∧ yc - 4 * d4 ≤ 3)
    (hm : 1 ≤ m ∧ m ≤ 12)
    (hrec1 : m ≤ 2 → (153 * (m + 9) + 2) / 5 + dom - 1 = doy)
    (hrec2 : 2 < m → (153 * (m - 3) + 2) / 5 + dom - 1 = doy) :
    daysFromCivil (100 * cent + yc + era * 400 + (if m ≤ 2 then 1 else 0)) m dom = z := by
  simp only [daysFromCivil]
  split_ifs <;> omega

/-- The calendar conversions invert each other: the civil triple printed
by `toISOString` determines the epoch day uniquely. -/
theorem daysFromCivil_civilFromDays (z : Int) :
    daysFromCivil (civilFromDays z).1 (civilFromDays z).2.1 (civilFromDays z).2.2 = z := by
  obtain ⟨hc0, hc3, hr0, hr1, hceq⟩ :=
    centurySplit_spec ((z + 719468) % 146097) (by omega) (by omega)
  obtain ⟨hy0, hy99, hd0, hd365, hyeq⟩ :=
    yearSplit_spec (centurySplit ((z + 719468) % 146097)).2 hr0 hr1
  obtain ⟨hm1, hm12, hdm1, hdm31, hrec1, hrec2⟩ :=
    monthDayOfDoy_spec (yearSplit (centurySplit ((z + 719468) % 146097)).2).2 hd0 hd365
  have hy4 : 0 ≤ (yearSplit (centurySplit ((z + 719468) % 146097)).2).1 -
      4 * ((yearSplit (centurySplit ((z + 719468) % 146097)).2).1 / 4) ∧
      (yearSplit (centurySplit ((z + 719468) % 146097)).2).1 -
      4 * ((yearSplit (centurySplit ((z + 719468) % 146097)).2).1 / 4) ≤ 3 := by omega
  show daysFromCivil
      (100 * (centurySplit ((z + 719468) % 146097)).1 +
        (yearSplit (centurySplit ((z + 719468) % 146097)).2).1 +
        (z + 719468) / 146097 * 400 +
        (if (monthDayOfDoy (yearSplit (centurySplit ((z + 719468) % 146097)).2).2).1 ≤ 2
          then 1 else 0))
      (monthDayOfDoy (yearSplit (centurySplit ((z + 719468) % 146097)).2).2).1
      (monthDayOfDoy (yearSplit (centurySplit ((z + 719468) % 146097)).2).2).2 = z
  exact daysFromCivil_assemble _ _ _ _ _ _ _ _ (by omega) ⟨hc0, hc3⟩ ⟨hy0, hy99⟩ hy4
    ⟨hm1, hm12⟩ hrec1 hrec2

/-- Month and day of every civil triple produced from an epoch day are in
calendar range. -/
theorem civilFromDays_ranges (z : Int) :
    1 ≤ (civilFromDays z).2.1 ∧ (civilFromDays z).2.1 ≤ 12 ∧
    1 ≤ (civilFromDays z).2.2 ∧ (civilFromDays z).2.2 ≤ 31 := by
  obtain ⟨hc0, hc3, hr0, hr1, hceq⟩ :=
    centurySplit_spec ((z + 719468) % 146097) (by omega) (by omega)
  obtain ⟨hy0, hy99, hd0, hd365, hyeq⟩ :=
    yearSplit_spec (centurySplit ((z + 719468) % 146097)).2 hr0 hr1
  obtain ⟨hm1, hm12, hdm1, hdm31, hrec1, hrec2⟩ :=
    monthDayOfDoy_spec (yearSplit (centurySplit ((z + 719468) % 146097)).2).2 hd0 hd365
  simp only [civilFromDays]
  omega

theorem digitChar_inj : ∀ a < 16, ∀ b < 16, Nat.digitChar a = Nat.digitChar b → a = b := by
  decide

theorem pad2_inj {m n : Int} (hm0 : 0 ≤ m) (hm : m < 100) (hn0 : 0 ≤ n) (hn : n < 100)
    (h : pad2 m = pad2 n) : m = n := by
  have h2 : [Nat.digitChar (m.toNat / 10), Nat.digitChar (m.toNat % 10)] =
      [Nat.digitChar (n.toNat / 10), Nat.digitChar (n.toNat % 10)] := congrArg String.data h
  simp only [List.cons.injEq, and_true] at h2
  have e1 := digitChar_inj (m.toNat / 10) (by omega) (n.toNat / 10) (by omega) h2.1
  have e2 := digitChar_inj (m.toNat % 10) (by omega) (n.toNat % 10) (by omega) h2.2
  omega

theorem pad4_inj {m n : Int} (hm0 : 0 ≤ m) (hm : m < 10000) (hn0 : 0 ≤ n) (hn : n < 10000)
    (h : pad4 m = pad4 n) : m = n := by
  have h2 : [Nat.digitChar (m.toNat / 1000), Nat.digitChar (m.toNat / 100 % 10),
      Nat.digitChar (m.toNat / 10 % 10), Nat.digitChar (m.toNat % 10)] =
      [Nat.digitChar (n.toNat / 1000), Nat.digitChar (n.toNat / 100 % 10),
      Nat.digitChar (n.toNat / 10 % 10), Nat.digitChar (n.toNat % 10)] := congrArg String.data h
  simp only [List.cons.injEq, and_true] at h2
  have e1 := digitChar_inj (m.toNat / 1000) (by omega) (n.toNat / 1000) (by omega) h2.1
  have e2 := digitChar_inj (m.toNat / 100 % 10) (by omega) (n.toNat / 100 % 10) (by omega) h2.2.1
  have e3 := digitChar_inj (m.toNat / 10 % 10) (by omega) (n.toNat / 10 % 10) (by omega) h2.2.2.1
  have e4 := digitChar_inj (m.toNat % 10) (by omega) (n.toNat % 10) (by omega) h2.2.2.2
  omega

theorem dateKeyOf_inj {y1 m1 d1 y2 m2 d2 : Int}
    (hy1 : 0 ≤ y1 ∧ y1 < 10000) (hm1 : 0 ≤ m1 ∧ m1 < 100) (hd1 : 0 ≤ d1 ∧ d1 < 100)
    (hy2 : 0 ≤ y2 ∧ y2 < 10000) (hm2 : 0 ≤ m2 ∧ m2 < 100) (hd2 : 0 ≤ d2 ∧ d2 < 100)
    (h : dateKeyOf y1 m1 d1 = dateKeyOf y2 m2 d2) : y1 = y2 ∧ m1 = m2 ∧ d1 = d2 := by
  have h2 : [Nat.digitChar (y1.toNat / 1000), Nat.digitChar (y1.toNat / 100 % 10),
      Nat.digitChar (y1.toNat / 10 % 10), Nat.digitChar (y1.toNat % 10), '-',
      Nat.digitChar (m1.toNat / 10), Nat.digitChar (m1.toNat % 10), '-',
      Nat.digitChar (d1.toNat / 10), Nat.digitChar (d1.toNat % 10)] =
      [Nat.digitChar (y2.toNat / 1000), Nat.digitChar (y2.toNat / 100 % 10),
      Nat.digitChar (y2.toNat / 10 % 10), Nat.digitChar (y2.toNat % 10), '-',
      Nat.digitChar (m2.toNat / 10), Nat.digitChar (m2.toNat % 10), '-',
      Nat.digitChar (d2.toNat / 10), Nat.digitChar (d2.toNat % 10)] := congrArg String.data h
  simp only [List.cons.injEq, and_true, true_and] at h2
  refine ⟨pad4_inj hy1.1 hy1.2 hy2.1 hy2.2 ?_, pad2_inj hm1.1 hm1.2 hm2.1 hm2.2 ?_,
    pad2_inj hd1.1 hd1.2 hd2.1 hd2.2 ?_⟩
  · exact congrArg String.mk (by simp [h2.1, h2.2.1, h2.2.2.1, h2.2.2.2.1])
  · exact congrArg String.mk (by simp [h2.2.2.2.2.1, h2.2.2.2.2.2.1])
  · exact congrArg String.mk (by simp [h2.2.2.2.2.2.2.1, h2.2.2.2.2.2.2.2])

theorem monthKeyOf_inj {y1 m1 y2 m2 : Int}
    (hy1 : 0 ≤ y1 ∧ y1 < 10000) (hm1 : 0 ≤ m1 ∧ m1 < 100)
    (hy2 : 0 ≤ y2 ∧ y2 < 10000) (hm2 : 0 ≤ m2 ∧ m2 < 100)
    (h : monthKeyOf y1 m1 = monthKeyOf y2 m2) : y1 = y2 ∧ m1 = m2 := by
  have h2 : [Nat.digitChar (y1.toNat / 1000), Nat.digitChar (y1.toNat / 100 % 10),
      Nat.digitChar (y1.toNat / 10 % 10), Nat.digitChar (y1.toNat % 10), '-',
      Nat.digitChar (m1.toNat / 10), Nat.digitChar (m1.toNat % 10)] =
      [Nat.digitChar (y2.toNat / 1000), Nat.digitChar (y2.toNat / 100 % 10),
      Nat.digitChar (y2.toNat / 10 % 10), Nat.digitChar (y2.toNat % 10), '-',
      Nat.digitChar (m2.toNat / 10), Nat.digitChar (m2.toNat % 10)] := congrArg String.data h
  simp only [List.cons.injEq, and_true, true_and] at h2
  refine ⟨pad4_inj hy1.1 hy1.2 hy2.1 hy2.2 ?_, pad2_inj hm1.1 hm1.2 hm2.1 hm2.2 ?_⟩
  · exact congrArg String.mk (by simp [h2.1, h2.2.1, h2.2.2.1, h2.2.2.2.1])
  · exact congrArg String.mk (by simp [h2.2.2.2.2.1, h2.2.2.2.2.2])

theorem hourKeyOf_inj {y1 m1 d1 h1 y2 m2 d2 h2 : Int}
    (hy1 : 0 ≤ y1 ∧ y1 < 10000) (hm1 : 0 ≤ m1 ∧ m1 < 100) (hd1 : 0 ≤ d1 ∧ d1 < 100)
    (hh1 : 0 ≤ h1 ∧ h1 < 100)
    (hy2 : 0 ≤ y2 ∧ y2 < 10000) (hm2 : 0 ≤ m2 ∧ m2 < 100) (hd2 : 0 ≤ d2 ∧ d2 < 100)
    (hh2 : 0 ≤ h2 ∧ h2 < 100)
    (h : hourKeyOf y1 m1 d1 h1 = hourKeyOf y2 m2 d2 h2) :
    y1 = y2 ∧ m1 = m2 ∧ d1 = d2 ∧ h1 = h2 := by
  have hx : [Nat.digitChar (y1.toNat / 1000), Nat.digitChar (y1.toNat / 100 % 10),
      Nat.digitChar (y1.toNat / 10 % 10), Nat.digitChar (y1.toNat % 10), '-',
      Nat.digitChar (m1.toNat / 10), Nat.digitChar (m1.toNat % 10), '-',
      Nat.digitChar (d1.toNat / 10), Nat.digitChar (d1.toNat % 10), 'T',
      Nat.digitChar (h1.toNat / 10), Nat.digitChar (h1.toNat % 10)] =
      [Nat.digitChar (y2.toNat / 1000), Nat.digitChar (y2.toNat / 100 % 10),
      Nat.digitChar (y2.toNat / 10 % 10), Nat.digitChar (y2.toNat % 10), '-',
      Nat.digitChar (m2.toNat / 10), Nat.digitChar (m2.toNat % 10), '-',
      Nat.digitChar (d2.toNat / 10), Nat.digitChar (d2.toNat % 10), 'T',
      Nat.digitChar (h2.toNat / 10), Nat.digitChar (h2.toNat % 10)] := congrArg String.data h
  simp only [List.cons.injEq, and_true, true_and] at hx
  refine ⟨pad4_inj hy1.1 hy1.2 hy2.1 hy2.2 ?_, pad2_inj hm1.1 hm1.2 hm2.1 hm2.2 ?_,
    pad2_inj hd1.1 hd1.2 hd2.1 hd2.2 ?_, pad2_inj hh1.1 hh1.2 hh2.1 hh2.2 ?_⟩
  · exact congrArg String.mk (by simp [hx.1, hx.2.1, hx.2.2.1, hx.2.2.2.1])
  · exact congrArg String.mk (by simp [hx.2.2.2.2.1, hx.2.2.2.2.2.1])
  · exact congrArg String.mk (by simp [hx.2.2.2.2.2.2.1, hx.2.2.2.2.2.2.2.1])
  · exact congrArg String.mk
      (by simp [hx.2.2.2.2.2.2.2.2.1, hx.2.2.2.2.2.2.2.2.2])

/-- Epoch-day conversion is injective (via the round trip). -/
theorem civilFromDays_injective {z1 z2 : Int}
    (h : civilFromDays z1 = civilFromDays z2) : z1 = z2 := by
  have h1 := daysFromCivil_civilFromDays z1
  have h2 := daysFromCivil_civilFromDays z2
  rw [h] at h1
  omega

/-- Epoch days between 0000-01-01 and 9999-12-31 have civil years in the
4-digit range the plain ISO format prints. -/
theorem civilFromDays_year_range {z : Int} (hlo : daysFromCivil 1 1 1 ≤ z)
    (hhi : z ≤ daysFromCivil 9998 12 31) :
    0 ≤ (civilFromDays z).1 ∧ (civilFromDays z).1 ≤ 9999 := by
  obtain ⟨hc0, hc3, hr0, hr1, hceq⟩ :=
    centurySplit_spec ((z + 719468) % 146097) (by omega) (by omega)
  obtain ⟨hy0, hy99, hd0, hd365, hyeq⟩ :=
    yearSplit_spec (centurySplit ((z + 719468) % 146097)).2 hr0 hr1
  obtain ⟨hm1, hm12, hdm1, hdm31, hrec1, hrec2⟩ :=
    monthDayOfDoy_spec (yearSplit (centurySplit ((z + 719468) % 146097)).2).2 hd0 hd365
  simp only [daysFromCivil] at hlo hhi
  simp only [civilFromDays]
  split_ifs <;> omega

theorem hourIndex_decomp (t : Int) :
    hourIndex t = 24 * epochDay t + msOfDay t / 3600000 := by
  unfold hourIndex epochDay msOfDay
  omega

theorem msOfDay_bounds (t : Int) : 0 ≤ msOfDay t ∧ msOfDay t < 86400000 := by
  unfold msOfDay
  omega

theorem mondayOf_dow (z : Int) : (mondayOf z + 4) % 7 = 1 := by
  unfold mondayOf
  split_ifs <;> omega

theorem mondayOf_range (z : Int) : z - 6 ≤ mondayOf z ∧ mondayOf z ≤ z := by
  unfold mondayOf
  split_ifs <;> omega

/-- Slicing the ISO string to ten characters yields the civil date key. -/
theorem isoSlice10 (t : Int) :
    jsSlice (toISOString t) 10 = dateKeyOf (civilFromDays (epochDay t)).1
      (civilFromDays (epochDay t)).2.1 (civilFromDays (epochDay t)).2.2 := rfl

theorem hourlyKey_shape (t : Int) :
    getWindowKey .hourly t = hourKeyOf (civilFromDays (epochDay t)).1
      (civilFromDays (epochDay t)).2.1 (civilFromDays (epochDay t)).2.2
      (msOfDay t / 3600000) := rfl

theorem dailyKey_shape (t : Int) :
    getWindowKey .daily t = dateKeyOf (civilFromDays (epochDay t)).1
      (civilFromDays (epochDay t)).2.1 (civilFromDays (epochDay t)).2.2 := rfl

theorem monthlyKey_shape (t : Int) :
    getWindowKey .monthly t = monthKeyOf (civilFromDays (epochDay t)).1
      (civilFromDays (epochDay t)).2.1 := rfl

theorem weeklyKey_shape (t : Int) :
    getWindowKey .weekly t = dateKeyOf (civilFromDays (mondayOf (epochDay t))).1
      (civilFromDays (mondayOf (epochDay t))).2.1
      (civilFromDays (mondayOf (epochDay t))).2.2 := by
  have hshift : epochDay (t + (if jsGetDay t = 0 then -6 else 1 - jsGetDay t) * 86400000) =
      mondayOf (epochDay t) := by
    unfold jsGetDay mondayOf epochDay
    split_ifs <;> omega
  show jsSlice (toISOString (t + (if jsGetDay t = 0 then -6 else 1 - jsGetDay t) * 86400000))
      10 = _
  rw [isoSlice10, hshift]

/-- Field bounds of a valid time: 4-digit year (also for the shifted
Monday), calendar month and day, hour below 24. -/
theorem validTime_bounds {t : Int} (hv : ValidTime t) :
    (0 ≤ (civilFromDays (epochDay t)).1 ∧ (civilFromDays (epochDay t)).1 ≤ 9999) ∧
    (1 ≤ (civilFromDays (epochDay t)).2.1 ∧ (civilFromDays (epochDay t)).2.1 ≤ 12) ∧
    (1 ≤ (civilFromDays (epochDay t)).2.2 ∧ (civilFromDays (epochDay t)).2.2 ≤ 31) ∧
    (0 ≤ msOfDay t / 3600000 ∧ msOfDay t / 3600000 ≤ 23) ∧
    (0 ≤ (civilFromDays (mondayOf (epochDay t))).1 ∧
      (civilFromDays (mondayOf (epochDay t))).1 ≤ 9999) := by
  obtain ⟨hlo, hhi⟩ := hv
  have hmo := mondayOf_range (epochDay t)
  have h1 := civilFromDays_year_range (z := epochDay t)
    (by simp only [daysFromCivil] at *; omega) (by simp only [daysFromCivil] at *; omega)
  have h2 := civilFromDays_year_range (z := mondayOf (epochDay t))
    (by simp only [daysFromCivil] at *; omega) (by simp only [daysFromCivil] at *; omega)
  have h3 := civilFromDays_ranges (epochDay t)
  have h4 := msOfDay_bounds t
  refine ⟨h1, ⟨h3.1, h3.2.1⟩, ⟨h3.2.2.1, h3.2.2.2⟩, by omega, h2⟩

/-- Two valid times share an hourly key exactly when they lie in the same
UTC hour. -/
theorem hourlyKey_iff {t1 t2 : Int} (hv1 : ValidTime t1) (hv2 : ValidTime t2) :
    (getWindowKey .hourly t1 = getWindowKey .hourly t2 ↔ hourIndex t1 = hourIndex t2) := by
  obtain ⟨hy1, hm1, hd1, hh1, -⟩ := validTime_bounds hv1
  obtain ⟨hy2, hm2, hd2, hh2, -⟩ := validTime_bounds hv2
  rw [hourlyKey_shape, hourlyKey_shape]
  constructor
  · intro h
    obtain ⟨ey, em, ed, eh⟩ := hourKeyOf_inj ⟨hy1.1, by omega⟩ ⟨by omega, by omega⟩
      ⟨by omega, by omega⟩ ⟨hh1.1, by omega⟩ ⟨hy2.1, by omega⟩ ⟨by omega, by omega⟩
      ⟨by omega, by omega⟩ ⟨hh2.1, by omega⟩ h
    have hdays : epochDay t1 = epochDay t2 := by
      apply civilFromDays_injective
      have e1 : civilFromDays (epochDay t1) =
          ((civilFromDays (epochDay t1)).1, (civilFromDays (epochDay t1)).2.1,
            (civilFromDays (epochDay t1)).2.2) := rfl
      have e2 : civilFromDays (epochDay t2) =
          ((civilFromDays (epochDay t2)).1, (civilFromDays (epochDay t2)).2.1,
            (civilFromDays (epochDay t2)).2.2) := rfl
      rw [e1, e2, ey, em, ed]
    have hx1 := hourIndex_decomp t1
    have hx2 := hourIndex_decomp t2
    omega
  · intro h
    have hx1 := hourIndex_decomp t1
    have hx2 := hourIndex_decomp t2
    have h4 := msOfDay_bounds t1
    have h5 := msOfDay_bounds t2
    have hdays : epochDay t1 = epochDay t2 := by omega
    have hhr : msOfDay t1 / 3600000 = msOfDay t2 / 3600000 := by omega
    rw [hdays, hhr]

/-- Two valid times share a daily key exactly when they lie on the same
UTC day. -/
theorem dailyKey_iff {t1 t2 : Int} (hv1 : ValidTime t1) (hv2 : ValidTime t2) :
    (getWindowKey .daily t1 = getWindowKey .daily t2 ↔ epochDay t1 = epochDay t2) := by
  obtain ⟨hy1, hm1, hd1, -, -⟩ := validTime_bounds hv1
  obtain ⟨hy2, hm2, hd2, -, -⟩ := validTime_bounds hv2
  rw [dailyKey_shape, dailyKey_shape]
  constructor
  · intro h
    obtain ⟨ey, em, ed⟩ := dateKeyOf_inj ⟨hy1.1, by omega⟩ ⟨by omega, by omega⟩
      ⟨by omega, by omega⟩ ⟨hy2.1, by omega⟩ ⟨by omega, by omega⟩ ⟨by omega, by omega⟩ h
    apply civilFromDays_injective
    have e1 : civilFromDays (epochDay t1) =
        ((civilFromDays (epochDay t1)).1, (civilFromDays (epochDay t1)).2.1,
          (civilFromDays (epochDay t1)).2.2) := rfl
    have e2 : civilFromDays (epochDay t2) =
        ((civilFromDays (epochDay t2)).1, (civilFromDays (epochDay t2)).2.1,
          (civilFromDays (epochDay t2)).2.2) := rfl
    rw [e1, e2, ey, em, ed]
  · intro h
    rw [h]

/-- Two valid times share a weekly key exactly when they lie in the same
Monday-started ISO week. -/
theorem weeklyKey_iff {t1 t2 : Int} (hv1 : ValidTime t1) (hv2 : ValidTime t2) :
    (getWindowKey .weekly t1 = getWindowKey .weekly t2 ↔
      mondayOf (epochDay t1) = mondayOf (epochDay t2)) := by
  obtain ⟨-, -, -, -, hw1⟩ := validTime_bounds hv1
  obtain ⟨-, -, -, -, hw2⟩ := validTime_bounds hv2
  have hr1 := civilFromDays_ranges (mondayOf (epochDay t1))
  have hr2 := civilFromDays_ranges (mondayOf (epochDay t2))
  rw [weeklyKey_shape, weeklyKey_shape]
  constructor
  · intro h
    obtain ⟨ey, em, ed⟩ := dateKeyOf_inj ⟨hw1.1, by omega⟩ ⟨by omega, by omega⟩
      ⟨by omega, by omega⟩ ⟨hw2.1, by omega⟩ ⟨by omega, by omega⟩ ⟨by omega, by omega⟩ h
    apply civilFromDays_injective
    have e1 : civilFromDays (mondayOf (epochDay t1)) =
        ((civilFromDays (mondayOf (epochDay t1))).1,
          (civilFromDays (mondayOf (epochDay t1))).2.1,
          (civilFromDays (mondayOf (epochDay t1))).2.2) := rfl
    have e2 : civilFromDays (mondayOf (epochDay t2)) =
        ((civilFromDays (mondayOf (epochDay t2))).1,
          (civilFromDays (mondayOf (epochDay t2))).2.1,
          (civilFromDays (mondayOf (epochDay t2))).2.2) := rfl
    rw [e1, e2, ey, em, ed]
  · intro h
    rw [h]

/-- Two valid times share a monthly key exactly when they lie in the same
civil month. -/
theorem monthlyKey_iff {t1 t2 : Int} (hv1 : ValidTime t1) (hv2 : ValidTime t2) :
    (getWindowKey .monthly t1 = getWindowKey .monthly t2 ↔ monthIndex t1 = monthIndex t2) := by
  obtain ⟨hy1, hm1, -, -, -⟩ := validTime_bounds hv1
  obtain ⟨hy2, hm2, -, -, -⟩ := validTime_bounds hv2
  rw [monthlyKey_shape, monthlyKey_shape]
  unfold monthIndex
  constructor
  · intro h
    obtain ⟨ey, em⟩ := monthKeyOf_inj ⟨hy1.1, by omega⟩ ⟨by omega, by omega⟩
      ⟨hy2.1, by omega⟩ ⟨by omega, by omega⟩ h
    omega
  · intro h
    have ey : (civilFromDays (epochDay t1)).1 = (civilFromDays (epochDay t2)).1 := by omega
    have em : (civilFromDays (epochDay t1)).2.1 = (civilFromDays (epochDay t2)).2.1 := by omega
    rw [ey, em]

/-- C3 (counterexample): the claimed empty window key for
`per_transaction` is refuted — at 2024-10-04T00:00:00Z the code returns
the full ISO timestamp, a non-empty string. -/
theorem perTransaction_key_not_empty :
    getWindowKey .per_transaction 1728000000000 = "2024-10-04T00:00:00.000Z" ∧
    getWindowKey .per_transaction 1728000000000 ≠ "" := by decide

/-- C3 (amended): for every timestamp with a 4-digit-printable year, the
window-key function returns the full ISO timestamp for
`per_transaction` (never the empty string), `YYYY-MM-DDTHH` for hourly,
`YYYY-MM-DD` for daily, the ISO-week Monday's `YYYY-MM-DD` for weekly
and `YYYY-MM` for monthly, all in UTC; two such timestamps get equal
hourly/daily/weekly/monthly keys exactly when they lie in the same
window, so adjacent windows always get different keys. -/
theorem getWindowKey_keys_and_windows (t : Int) (hv : ValidTime t) :
    getWindowKey .per_transaction t = toISOString t ∧
    getWindowKey .per_transaction t ≠ "" ∧
    getWindowKey .hourly t = hourKeyOf (civilFromDays (epochDay t)).1
      (civilFromDays (epochDay t)).2.1 (civilFromDays (epochDay t)).2.2
      (msOfDay t / 3600000) ∧
    getWindowKey .daily t = dateKeyOf (civilFromDays (epochDay t)).1
      (civilFromDays (epochDay t)).2.1 (civilFromDays (epochDay t)).2.2 ∧
    getWindowKey .monthly t = monthKeyOf (civilFromDays (epochDay t)).1
      (civilFromDays (epochDay t)).2.1 ∧
    getWindowKey .weekly t = dateKeyOf (civilFromDays (mondayOf (epochDay t))).1
      (civilFromDays (mondayOf (epochDay t))).2.1
      (civilFromDays (mondayOf (epochDay t))).2.2 ∧
    (mondayOf (epochDay t) + 4) % 7 = 1 ∧
    epochDay t - 6 ≤ mondayOf (epochDay t) ∧ mondayOf (epochDay t) ≤ epochDay t ∧
    (∀ t2 : Int, ValidTime t2 →
      (getWindowKey .hourly t = getWindowKey .hourly t2 ↔ hourIndex t = hourIndex t2) ∧
      (getWindowKey .daily t = getWindowKey .daily t2 ↔ epochDay t = epochDay t2) ∧
      (getWindowKey .weekly t = getWindowKey .weekly t2 ↔
        mondayOf (epochDay t) = mondayOf (epochDay t2)) ∧
      (getWindowKey .monthly t = getWindowKey .monthly t2 ↔
        monthIndex t = monthIndex t2)) := by
  have hne : getWindowKey .per_transaction t ≠ "" := by
    intro h
    have hlen : (getWindowKey .per_transaction t).data.length = 24 := rfl
    rw [h] at hlen
    simp at hlen
  refine ⟨rfl, hne, hourlyKey_shape t, dailyKey_shape t, monthlyKey_shape t,
    weeklyKey_shape t, mondayOf_dow (epochDay t), (mondayOf_range (epochDay t)).1,
    (mondayOf_range (epochDay t)).2, ?_⟩
  intro t2 hv2
  exact ⟨hourlyKey_iff hv hv2, dailyKey_iff hv hv2, weeklyKey_iff hv hv2,
    monthlyKey_iff hv hv2⟩

/-- C3 (witness): at 2024-10-04T00:00:00Z and one hour later the validity
hypotheses hold and the theorem separates the two hourly windows. -/
theorem getWindowKey_keys_and_windows_witness :
    getWindowKey .hourly 1728000000000 ≠ getWindowKey .hourly 1728003600000 := by
  have h := (getWindowKey_keys_and_windows 1728000000000 (by decide)).2.2.2.2.2.2.2.2.2
    1728003600000 (by decide)
  intro he
  exact absurd (h.1.mp he) (by decide)


/-! ### Policy Engine lemmas (C1, C5, C6, C7) -/

theorem recordBudgets_no_match (policyId : String) (tx : AgentTransaction)
    (bs : List BudgetLimit) (s : EngineState)
    (h : ∀ b ∈ bs, budgetMatches b tx = false) :
    bs.foldl (recordBudgetStep policyId tx) s = s := by
  induction bs generalizing s with
  | nil => rfl
  | cons b rest ih =>
      have hb : budgetMatches b tx = false := h b (by simp)
      simp only [List.foldl_cons, recordBudgetStep, hb, Bool.false_eq_true, if_false]
      exact ih s (fun b2 hb2 => h b2 (by simp [hb2]))

theorem recordTransaction_buckets_no_match (st : EngineState) (now : Int)
    (tx : AgentTransaction)
    (h : ∀ p ∈ st.policies, p.enabled = true → ∀ b ∈ p.budgets, budgetMatches b tx = false) :
    (recordTransaction st now tx).spendBuckets = st.spendBuckets := by
  unfold recordTransaction
  have main : ∀ (ps : List SpendPolicy) (s : EngineState),
      (∀ p ∈ ps, p.enabled = true → ∀ b ∈ p.budgets, budgetMatches b tx = false) →
      (ps.foldl (recordPolicyStep now tx) s).spendBuckets = s.spendBuckets := by
    intro ps
    induction ps with
    | nil => intro s _; rfl
    | cons p rest ih =>
        intro s h2
        have hstep : (recordPolicyStep now tx s p).spendBuckets = s.spendBuckets := by
          unfold recordPolicyStep
          by_cases hp : p.enabled = true
          · rw [if_pos hp, recordBudgets_no_match p.id tx p.budgets s (h2 p (by simp) hp)]
          · rw [if_neg hp]
        rw [List.foldl_cons,
          ih (recordPolicyStep now tx s p) (fun p2 hp2 => h2 p2 (by simp [hp2])), hstep]
  exact main st.policies st h

/-- C1 (amended): `recordTransaction` consults no decision, so after a
deny it still increments the bucket of every matching budget; the
claimed no-increase holds exactly when no budget of an enabled policy
matches the transaction (a deny from a cooldown or a rule), in which
case no bucket's amount changes. -/
theorem recordTransaction_no_matching_budget_preserves_buckets
    (st : EngineState) (now : Int) (tx : AgentTransaction)
    (hnb : ∀ p ∈ st.policies, p.enabled = true → ∀ b ∈ p.budgets, budgetMatches b tx = false)
    (hdeny : (evaluate st now tx).action = .deny) :
    ∀ key, bucketAmount (recordTransaction st now tx) key = bucketAmount st key := by
  intro key
  unfold bucketAmount
  rw [recordTransaction_buckets_no_match st now tx hnb]

/-- C1 (witness): a cooldown deny on a budget-free policy, after which
`recordTransaction` leaves every bucket amount unchanged. -/
theorem recordTransaction_no_matching_budget_preserves_buckets_witness :
    bucketAmount (recordTransaction stCooldown 1728000030000 txBig) "k" =
      bucketAmount stCooldown "k" :=
  recordTransaction_no_matching_budget_preserves_buckets stCooldown 1728000030000 txBig
    (by decide) (by decide) "k"

/-- C1 (counterexample): with an empty 50-USDC daily budget, the 100-USDC
transaction is denied, yet `recordTransaction` on the same state raises
the bucket's amount from 0 to 100. -/
theorem recordTransaction_after_deny_increases_bucket :
    (evaluate stBudget 1728000000000 txBig).action = .deny ∧
    bucketAmount stBudget (getBudgetBucketKey "p1" budgetDaily50 txBig) = 0 ∧
    bucketAmount (recordTransaction stBudget 1728000000000 txBig)
      (getBudgetBucketKey "p1" budgetDaily50 txBig) = 100 := by
  decide

theorem evaluateBudgetList_none_iff (st : EngineState) (p : SpendPolicy)
    (tx : AgentTransaction) (bs : List BudgetLimit) :
    evaluateBudgetList st p tx bs = none ↔
      ∀ b ∈ bs, budgetMatches b tx = true →
        bucketAmount st (getBudgetBucketKey p.id b tx) + tx.amount ≤ b.maxAmount := by
  induction bs with
  | nil => simp [evaluateBudgetList]
  | cons b rest ih =>
      simp only [evaluateBudgetList]
      by_cases hm : budgetMatches b tx = true
      · rw [if_pos hm]
        by_cases hex : bucketAmount st (getBudgetBucketKey p.id b tx) + tx.amount > b.maxAmount
        · rw [if_pos hex]
          constructor
          · intro h
            exact absurd h (by simp)
          · intro hall
            exact absurd (hall b (by simp) hm) (by omega)
        · rw [if_neg hex, ih]
          constructor
          · intro hall b2 hb2 hm2
            rcases List.mem_cons.mp hb2 with rfl | hb2
            · omega
            · exact hall b2 hb2 hm2
          · intro hall b2 hb2 hm2
            exact hall b2 (by simp [hb2]) hm2
      · rw [if_neg hm, ih]
        constructor
        · intro hall b2 hb2 hm2
          rcases List.mem_cons.mp hb2 with rfl | hb2
          · exact absurd hm2 hm
          · exact hall b2 hb2 hm2
        · intro hall b2 hb2 hm2
          exact hall b2 (by simp [hb2]) hm2

theorem evaluateBudgetList_some (st : EngineState) (p : SpendPolicy)
    (tx : AgentTransaction) (bs : List BudgetLimit) (d : PolicyDecision)
    (h : evaluateBudgetList st p tx bs = some d) :
    ∃ pre b post, bs = pre ++ b :: post ∧ budgetMatches b tx = true ∧
      bucketAmount st (getBudgetBucketKey p.id b tx) + tx.amount > b.maxAmount ∧
      (∀ b2 ∈ pre, budgetMatches b2 tx = true →
        bucketAmount st (getBudgetBucketKey p.id b2 tx) + tx.amount ≤ b2.maxAmount) ∧
      d = budgetDenyDecision p b (bucketAmount st (getBudgetBucketKey p.id b tx))
        (bucketAmount st (getBudgetBucketKey p.id b tx) + tx.amount) tx := by
  induction bs with
  | nil => simp [evaluateBudgetList] at h
  | cons b rest ih =>
      simp only [evaluateBudgetList] at h
      by_cases hm : budgetMatches b tx = true
      · rw [if_pos hm] at h
        by_cases hex : bucketAmount st (getBudgetBucketKey p.id b tx) + tx.amount > b.maxAmount
        · rw [if_pos hex] at h
          refine ⟨[], b, rest, rfl, hm, hex, by simp, ?_⟩
          exact (Option.some.inj h).symm
        · rw [if_neg hex] at h
          obtain ⟨pre, b0, post, heq, hm0, hex0, hpre, hd⟩ := ih h
          refine ⟨b :: pre, b0, post, by rw [heq, List.cons_append], hm0, hex0, ?_, hd⟩
          intro b2 hb2 hm2
          rcases List.mem_cons.mp hb2 with rfl | hb2
          · omega
          · exact hpre b2 hb2 hm2
      · rw [if_neg hm] at h
        obtain ⟨pre, b0, post, heq, hm0, hex0, hpre, hd⟩ := ih h
        refine ⟨b :: pre, b0, post, by rw [heq, List.cons_append], hm0, hex0, ?_, hd⟩
        intro b2 hb2 hm2
        rcases List.mem_cons.mp hb2 with rfl | hb2
        · exact absurd hm2 hm
        · exact hpre b2 hb2 hm2

/-- C6: the budget check projects `current bucket amount + tx.amount` over
the budgets whose currency, agent and service filters match; it returns
nothing exactly when every matching budget keeps `projected ≤
maxAmount` (the limit is inclusive, equality does not deny), and any
returned decision is a deny citing the first violated budget. -/
theorem evaluateBudgets_first_violation (st : EngineState) (p : SpendPolicy)
    (tx : AgentTransaction) :
    (evaluateBudgets st p tx = none ↔
      ∀ b ∈ p.budgets, budgetMatches b tx = true →
        bucketAmount st (getBudgetBucketKey p.id b tx) + tx.amount ≤ b.maxAmount) ∧
    (∀ d, evaluateBudgets st p tx = some d →
      d.allowed = false ∧ d.action = .deny ∧
      ∃ pre b post, p.budgets = pre ++ b :: post ∧ budgetMatches b tx = true ∧
        bucketAmount st (getBudgetBucketKey p.id b tx) + tx.amount > b.maxAmount ∧
        (∀ b2 ∈ pre, budgetMatches b2 tx = true →
          bucketAmount st (getBudgetBucketKey p.id b2 tx) + tx.amount ≤ b2.maxAmount) ∧
        d = budgetDenyDecision p b (bucketAmount st (getBudgetBucketKey p.id b tx))
          (bucketAmount st (getBudgetBucketKey p.id b tx) + tx.amount) tx) := by
  constructor
  · exact evaluateBudgetList_none_iff st p tx p.budgets
  · intro d h
    obtain ⟨pre, b, post, heq, hm, hex, hpre, hd⟩ := evaluateBudgetList_some st p tx p.budgets d h
    exact ⟨by rw [hd]; rfl, by rw [hd]; rfl, pre, b, post, heq, hm, hex, hpre, hd⟩

/-- C6 (witness): with 50 USDC already in the daily bucket and a 150-USDC
limit, a 100-USDC transaction projects to exactly the limit and is not
denied. -/
theorem evaluateBudgets_first_violation_witness :
    evaluateBudgets stBoundary policyBudget150 txBig = none :=
  (evaluateBudgets_first_violation stBoundary policyBudget150 txBig).1.mpr (by decide)

/-- C7: with `cooldownMs` set (non-zero) and a recorded last-transaction
time for the agent, the cooldown check denies with a remaining-ms
detail exactly when `now - lastTime < cooldownMs`; at exactly
`cooldownMs` elapsed it passes, and on a budget-free single-policy
engine the deny is what `evaluate` returns. -/
theorem evaluateCooldown_deny_iff (st : EngineState) (now : Int) (p : SpendPolicy)
    (tx : AgentTransaction) (cd lastTime : Int)
    (hcd : p.cooldownMs = some cd) (hcd0 : cd ≠ 0)
    (hlast : alookup st.lastTransactionTime tx.agentId = some lastTime) :
    (evaluateCooldown st now p tx = some (cooldownDenyDecision p cd (now - lastTime)) ↔
      now - lastTime < cd) ∧
    (cd ≤ now - lastTime → evaluateCooldown st now p tx = none) ∧
    (cooldownDenyDecision p cd (now - lastTime)).action = .deny ∧
    (cooldownDenyDecision p cd (now - lastTime)).allowed = false ∧
    alookup (cooldownDenyDecision p cd (now - lastTime)).details "remainingMs" =
      some (.int (cd - (now - lastTime))) ∧
    (st.policies = [p] → p.enabled = true → p.budgets = [] → now - lastTime < cd →
      evaluate st now tx = cooldownDenyDecision p cd (now - lastTime)) := by
  have hunf : evaluateCooldown st now p tx =
      (if now - lastTime < cd then some (cooldownDenyDecision p cd (now - lastTime))
        else none) := by
    simp only [evaluateCooldown, hcd, hlast]
    rw [if_neg hcd0]
  refine ⟨?_, ?_, rfl, rfl, ?_, ?_⟩
  · rw [hunf]
    constructor
    · intro h
      by_contra hlt
      rw [if_neg hlt] at h
      exact absurd h (by simp)
    · intro hlt
      rw [if_pos hlt]
  · intro hge
    rw [hunf, if_neg (by omega)]
  · simp [cooldownDenyDecision, alookup]
  · intro hpol hen hbud hlt
    unfold evaluate getMostRestrictive perPolicyDecisions
    rw [hpol]
    have hdec : policyDecision st now p tx = cooldownDenyDecision p cd (now - lastTime) := by
      unfold policyDecision evaluateBudgets
      rw [hbud]
      simp only [evaluateBudgetList]
      rw [hunf, if_pos hlt]
    simp [hen, hdec, List.insertionSort]

/-- C7 (witness): cooldown of 60 s, evaluated 30 s after the last
transaction: `evaluate` returns the cooldown deny; and exactly 60 s
after it, the cooldown check passes. -/
theorem evaluateCooldown_deny_iff_witness :
    evaluate stCooldown 1728000030000 txBig =
      cooldownDenyDecision policyCooldown 60000 30000 ∧
    evaluateCooldown stCooldown 1728000060000 policyCooldown txBig = none := by
  have h1 := evaluateCooldown_deny_iff stCooldown 1728000030000 policyCooldown txBig
    60000 1728000000000 rfl (by decide) (by decide)
  have h2 := evaluateCooldown_deny_iff stCooldown 1728000060000 policyCooldown txBig
    60000 1728000000000 rfl (by decide) (by decide)
  constructor
  · exact h1.2.2.2.2.2 rfl rfl rfl (by decide)
  · exact h2.2.1 (by decide)

/-- C5 (amended): with zero policies loaded `evaluate` returns the default
allow whose reason is the literal string "No policies loaded — allowing
by default"; with any enabled policies it returns one of the per-policy
decisions, of minimal severity rank under deny(0) <
require_approval(1) < flag(2) < allow(3). -/
theorem evaluate_no_policies_and_most_restrictive (st : EngineState) (now : Int)
    (tx : AgentTransaction) :
    (st.policies = [] →
      evaluate st now tx = noPoliciesDecision ∧
      noPoliciesDecision.action = .allow ∧ noPoliciesDecision.allowed = true ∧
      noPoliciesDecision.reason = "No policies loaded — allowing by default") ∧
    (perPolicyDecisions st now tx ≠ [] →
      evaluate st now tx ∈ perPolicyDecisions st now tx ∧
      ∀ r ∈ perPolicyDecisions st now tx,
        actionSeverity (evaluate st now tx).action ≤ actionSeverity r.action) := by
  constructor
  · intro h
    have hl : perPolicyDecisions st now tx = [] := by
      simp [perPolicyDecisions, h]
    refine ⟨?_, rfl, rfl, rfl⟩
    unfold evaluate getMostRestrictive
    rw [hl]
    simp [List.insertionSort]
  · intro hne
    haveI instTot : IsTotal PolicyDecision
        (fun a b : PolicyDecision => actionSeverity a.action ≤ actionSeverity b.action) :=
      ⟨fun a b => le_total _ _⟩
    haveI instTrans : IsTrans PolicyDecision
        (fun a b : PolicyDecision => actionSeverity a.action ≤ actionSeverity b.action) :=
      ⟨fun _ _ _ hab hbc => le_trans hab hbc⟩
    have hperm := List.perm_insertionSort
      (fun a b : PolicyDecision => actionSeverity a.action ≤ actionSeverity b.action)
      (perPolicyDecisions st now tx)
    have hsorted := List.sorted_insertionSort
      (fun a b : PolicyDecision => actionSeverity a.action ≤ actionSeverity b.action)
      (perPolicyDecisions st now tx)
    cases hs : List.insertionSort
        (fun a b : PolicyDecision => actionSeverity a.action ≤ actionSeverity b.action)
        (perPolicyDecisions st now tx) with
    | nil =>
        rw [hs] at hperm
        exact absurd hperm.symm.eq_nil hne
    | cons d rest =>
        have hev : evaluate st now tx = d := by
          unfold evaluate getMostRestrictive
          rw [hs]
          rfl
        rw [hs] at hperm hsorted
        have hd_mem : d ∈ perPolicyDecisions st now tx :=
          hperm.mem_iff.mp (List.mem_cons_self d rest)
        have hmin : ∀ x ∈ perPolicyDecisions st now tx,
            actionSeverity d.action ≤ actionSeverity x.action := by
          intro x hx
          have hx2 : x ∈ d :: rest := hperm.mem_iff.mpr hx
          rcases List.mem_cons.mp hx2 with rfl | hx3
          · exact le_refl _
          · exact (List.sorted_cons.mp hsorted).1 x hx3
        rw [hev]
        exact ⟨hd_mem, hmin⟩

/-- C5 (witness): the engine with no loaded policies returns the default
allow decision. -/
theorem evaluate_no_policies_and_most_restrictive_witness :
    evaluate stEmpty 0 txBig = noPoliciesDecision :=
  ((evaluate_no_policies_and_most_restrictive stEmpty 0 txBig).1 rfl).1

/-- C5 (counterexample): with zero policies the decision is an allow, but
its reason is the string "No policies loaded — allowing by default",
not the claimed "no policies". -/
theorem evaluate_no_policies_reason_cex :
    (evaluate stEmpty 0 txBig).action = .allow ∧
    (evaluate stEmpty 0 txBig).reason = "No policies loaded — allowing by default" ∧
    (evaluate stEmpty 0 txBig).reason ≠ "no policies" := by
  decide


/-! ### Spend Tracker lemmas (C4) -/

theorem alookup_aset_self {α : Type} (l : List (String × α)) (k : String) (v : α) :
    alookup (aset l k v) k = some v := by
  induction l with
  | nil => simp [aset, alookup]
  | cons kv rest ih =>
      by_cases h : kv.1 = k
      · simp [aset, h, alookup]
      · simp [aset, h, alookup, ih]

theorem alookup_aset_ne {α : Type} (l : List (String × α)) (k k2 : String) (v : α)
    (h : k2 ≠ k) : alookup (aset l k v) k2 = alookup l k2 := by
  induction l with
  | nil =>
      simp only [aset, alookup]
      rw [if_neg (fun he => h he.symm)]
  | cons kv rest ih =>
      obtain ⟨k1, v1⟩ := kv
      by_cases h1 : k1 = k
      · subst h1
        simp only [aset, if_pos rfl, alookup]
        rw [if_neg (fun he => h he.symm), if_neg (fun he => h he.symm)]
      · simp only [aset, if_neg h1, alookup]
        by_cases h2 : k1 = k2
        · rw [if_pos h2, if_pos h2]
        · rw [if_neg h2, if_neg h2]
          exact ih

theorem jsSetAdd_mem (l : List String) (x id : String) :
    id ∈ jsSetAdd l x ↔ (id ∈ l ∨ id = x) := by
  unfold jsSetAdd
  by_cases h : l.contains x
  · rw [if_pos h]
    constructor
    · intro h2
      exact Or.inl h2
    · intro h2
      rcases h2 with h2 | rfl
      · exact h2
      · exact List.mem_of_elem_eq_true h
  · rw [if_neg h]
    simp

theorem indexIds_addToIndex (idx : List (String × List String)) (key txId k id : String) :
    id ∈ indexIds (addToIndex idx key txId) k ↔
      (id ∈ indexIds idx k ∨ (k = key ∧ id = txId)) := by
  unfold addToIndex indexIds
  by_cases hk : k = key
  · subst hk
    cases h : alookup idx k with
    | none => simp [alookup_aset_self, h, jsSetAdd]
    | some s => simp [alookup_aset_self, h, jsSetAdd_mem]
  · cases h : alookup idx key with
    | none => simp [alookup_aset_ne idx key k [txId] hk, hk]
    | some s => simp [alookup_aset_ne idx key k _ hk, hk]

theorem lastWith_append (hist : List AgentTransaction) (tx : AgentTransaction) (id : String) :
    lastWith (hist ++ [tx]) id = if tx.id = id then some tx else lastWith hist id := by
  unfold lastWith
  rw [List.reverse_append]
  simp [List.find?_cons]
  split <;> simp_all

theorem firstWith_append (hist : List AgentTransaction) (tx : AgentTransaction) (id : String) :
    firstWith (hist ++ [tx]) id =
      match firstWith hist id with
      | some t => some t
      | none => if tx.id = id then some tx else none := by
  unfold firstWith
  induction hist with
  | nil => simp [List.find?_cons]; split <;> simp_all
  | cons t rest ih =>
      by_cases h : t.id = id
      · simp [List.find?_cons, h]
      · simp only [List.cons_append, List.find?_cons]
        split <;> simp_all

theorem lastWith_isSome_iff_firstWith (txs : List AgentTransaction) (id : String) :
    (lastWith txs id).isSome ↔ (firstWith txs id).isSome := by
  unfold lastWith firstWith
  rw [List.find?_isSome, List.find?_isSome]
  constructor
  · intro ⟨x, hx, hp⟩
    exact ⟨x, List.mem_reverse.mp hx, hp⟩
  · intro ⟨x, hx, hp⟩
    exact ⟨x, List.mem_reverse.mpr hx, hp⟩



theorem record_update (st : TrackerState) (tx : AgentTransaction)
    (hup : (alookup st.transactions tx.id).isSome = true) :
    record st tx = { st with transactions := aset st.transactions tx.id tx } := by
  simp only [record, hup, if_true]

theorem record_insert (st : TrackerState) (tx : AgentTransaction)
    (hup : (alookup st.transactions tx.id).isSome = false) :
    record st tx =
      { transactions := aset st.transactions tx.id tx
        byAgent := addToIndex st.byAgent tx.agentId tx.id
        byService :=
          match tx.service with
          | some s => addToIndex st.byService s tx.id
          | none => st.byService
        byRecipient := addToIndex st.byRecipient tx.recipient tx.id
        chronological := st.chronological ++ [tx.id] } := by
  simp only [record, hup, Bool.false_eq_true, if_false]

theorem applyRecords_inv (txs : List AgentTransaction) :
    (∀ id, alookup (applyRecords txs).transactions id = lastWith txs id) ∧
    (applyRecords txs).chronological.Nodup ∧
    (∀ id, id ∈ (applyRecords txs).chronological ↔ (firstWith txs id).isSome) ∧
    (∀ k id, id ∈ indexIds (applyRecords txs).byAgent k ↔
      ∃ t, firstWith txs id = some t ∧ t.agentId = k) ∧
    (∀ k id, id ∈ indexIds (applyRecords txs).byRecipient k ↔
      ∃ t, firstWith txs id = some t ∧ t.recipient = k) ∧
    (∀ k id, id ∈ indexIds (applyRecords txs).byService k ↔
      ∃ t, firstWith txs id = some t ∧ t.service = some k) := by
  induction txs using List.reverseRecOn with
  | nil =>
      refine ⟨?_, ?_, ?_, ?_, ?_, ?_⟩ <;>
        simp [applyRecords, emptyTracker, alookup, lastWith, firstWith, indexIds]
  | append_singleton hist tx ih =>
      obtain ⟨ihT, ihN, ihC, ihA, ihR, ihS⟩ := ih
      have happ : applyRecords (hist ++ [tx]) = record (applyRecords hist) tx := by
        unfold applyRecords
        rw [List.foldl_append]
        rfl
      rw [happ]
      have hT : ∀ id, alookup (aset (applyRecords hist).transactions tx.id tx) id =
          lastWith (hist ++ [tx]) id := by
        intro id
        rw [lastWith_append]
        by_cases he : tx.id = id
        · subst he
          rw [if_pos rfl, alookup_aset_self]
        · rw [if_neg he, alookup_aset_ne _ _ _ _ (fun h2 => he h2.symm), ihT]
      by_cases hup : (alookup (applyRecords hist).transactions tx.id).isSome = true
      · -- update in place: indices and chronological untouched
        have hfirst : ∀ id, firstWith (hist ++ [tx]) id = firstWith hist id := by
          intro id
          rw [firstWith_append]
          cases hf : firstWith hist id with
          | some t => rfl
          | none =>
              by_cases he : tx.id = id
              · subst he
                have h1 : (lastWith hist tx.id).isSome = true := by rw [← ihT tx.id]; exact hup
                have h2 := (lastWith_isSome_iff_firstWith hist tx.id).mp h1
                rw [hf] at h2
                simp at h2
              · rw [if_neg he]
        rw [record_update _ _ hup]
        refine ⟨hT, ihN, ?_, ?_, ?_, ?_⟩
        · intro id
          rw [hfirst id]
          exact ihC id
        · intro k id
          rw [hfirst id]
          exact ihA k id
        · intro k id
          rw [hfirst id]
          exact ihR k id
        · intro k id
          rw [hfirst id]
          exact ihS k id
      · -- first insert
        have hup2 : (alookup (applyRecords hist).transactions tx.id).isSome = false := by
          simpa using hup
        have hfnone : firstWith hist tx.id = none := by
          have h1 : (lastWith hist tx.id).isSome = false := by rw [← ihT tx.id]; exact hup2
          have h2 := (lastWith_isSome_iff_firstWith hist tx.id)
          cases hf : firstWith hist tx.id with
          | none => rfl
          | some t =>
              rw [hf] at h2
              simp at h2
              rw [h2] at h1
              simp at h1
        have hfirst_self : firstWith (hist ++ [tx]) tx.id = some tx := by
          rw [firstWith_append, hfnone, if_pos rfl]
        have hfirst_ne : ∀ id, tx.id ≠ id → firstWith (hist ++ [tx]) id = firstWith hist id := by
          intro id he
          rw [firstWith_append]
          cases hf : firstWith hist id with
          | some t => rfl
          | none => rw [if_neg he]
        have hnotin : tx.id ∉ (applyRecords hist).chronological := by
          intro hmem
          have := (ihC tx.id).mp hmem
          rw [hfnone] at this
          simp at this
        rw [record_insert _ _ hup2]
        refine ⟨hT, ?_, ?_, ?_, ?_, ?_⟩
        · simp only [List.nodup_append, List.nodup_cons, List.nodup_nil]
          exact ⟨ihN, by simp, by simpa using hnotin⟩
        · intro id
          by_cases he : tx.id = id
          · subst he
            simp only [List.mem_append, List.mem_singleton]
            rw [hfirst_self]
            simp
          · simp only [List.mem_append, List.mem_singleton]
            rw [hfirst_ne id he, ← ihC id]
            constructor
            · intro h2
              rcases h2 with h2 | h2
              · exact h2
              · exact absurd h2.symm he
            · intro h2
              exact Or.inl h2
        · intro k id
          rw [indexIds_addToIndex]
          by_cases he : tx.id = id
          · subst he
            rw [hfirst_self]
            constructor
            · intro h2
              rcases h2 with h2 | ⟨hk, -⟩
              · obtain ⟨t, ht, -⟩ := (ihA k tx.id).mp h2
                rw [hfnone] at ht
                exact absurd ht (by simp)
              · exact ⟨tx, rfl, hk.symm⟩
            · intro ⟨t, ht, hk⟩
              have ht2 : t = tx := by
                have := Option.some.inj ht
                exact this.symm ▸ rfl
              exact Or.inr ⟨by rw [← hk, ht2], rfl⟩
          · rw [hfirst_ne id he]
            constructor
            · intro h2
              rcases h2 with h2 | ⟨-, hid⟩
              · exact (ihA k id).mp h2
              · exact absurd hid.symm he
            · intro h2
              exact Or.inl ((ihA k id).mpr h2)
        · intro k id
          rw [indexIds_addToIndex]
          by_cases he : tx.id = id
          · subst he
            rw [hfirst_self]
            constructor
            · intro h2
              rcases h2 with h2 | ⟨hk, -⟩
              · obtain ⟨t, ht, -⟩ := (ihR k tx.id).mp h2
                rw [hfnone] at ht
                exact absurd ht (by simp)
              · exact ⟨tx, rfl, hk.symm⟩
            · intro ⟨t, ht, hk⟩
              have ht2 : t = tx := by
                have := Option.some.inj ht
                exact this.symm ▸ rfl
              exact Or.inr ⟨by rw [← hk, ht2], rfl⟩
          · rw [hfirst_ne id he]
            constructor
            · intro h2
              rcases h2 with h2 | ⟨-, hid⟩
              · exact (ihR k id).mp h2
              · exact absurd hid.symm he
            · intro h2
              exact Or.inl ((ihR k id).mpr h2)
        · intro k id
          cases hs : tx.service with
          | none =>
              by_cases he : tx.id = id
              · subst he
                rw [hfirst_self]
                constructor
                · intro h2
                  obtain ⟨t, ht, -⟩ := (ihS k tx.id).mp h2
                  rw [hfnone] at ht
                  exact absurd ht (by simp)
                · intro ⟨t, ht, hsv⟩
                  have ht2 : t = tx := by
                    have := Option.some.inj ht
                    exact this.symm ▸ rfl
                  rw [ht2, hs] at hsv
                  exact absurd hsv (by simp)
              · rw [hfirst_ne id he]
                exact ihS k id
          | some s =>
              rw [indexIds_addToIndex]
              by_cases he : tx.id = id
              · subst he
                rw [hfirst_self]
                constructor
                · intro h2
                  rcases h2 with h2 | ⟨hk, -⟩
                  · obtain ⟨t, ht, -⟩ := (ihS k tx.id).mp h2
                    rw [hfnone] at ht
                    exact absurd ht (by simp)
                  · exact ⟨tx, rfl, by rw [hs, hk]⟩
                · intro ⟨t, ht, hsv⟩
                  have ht2 : t = tx := by
                    have := Option.some.inj ht
                    exact this.symm ▸ rfl
                  rw [ht2, hs] at hsv
                  exact Or.inr ⟨(Option.some.inj hsv).symm, rfl⟩
              · rw [hfirst_ne id he]
                constructor
                · intro h2
                  rcases h2 with h2 | ⟨-, hid⟩
                  · exact (ihS k id).mp h2
                  · exact absurd hid.symm he
                · intro h2
                  exact Or.inl ((ihS k id).mpr h2)


/-- C4 (amended): replaying any sequence of `record` calls from the empty
tracker, every transaction id appears in at most one position of the
chronological list; the primary storage holds the last record of each
id, while each secondary index (by-agent, by-service, by-recipient)
holds exactly the ids whose FIRST record carried that key — an update
that changes a field leaves the indices at the first-insert values. -/
theorem tracker_nodup_and_indices_first_insert (txs : List AgentTransaction) :
    (applyRecords txs).chronological.Nodup ∧
    (∀ id, alookup (applyRecords txs).transactions id = lastWith txs id) ∧
    (∀ k id, id ∈ indexIds (applyRecords txs).byAgent k ↔
      ∃ t, firstWith txs id = some t ∧ t.agentId = k) ∧
    (∀ k id, id ∈ indexIds (applyRecords txs).byRecipient k ↔
      ∃ t, firstWith txs id = some t ∧ t.recipient = k) ∧
    (∀ k id, id ∈ indexIds (applyRecords txs).byService k ↔
      ∃ t, firstWith txs id = some t ∧ t.service = some k) := by
  obtain ⟨hT, hN, hC, hA, hR, hS⟩ := applyRecords_inv txs
  exact ⟨hN, hT, hA, hR, hS⟩

/-- C4 (counterexample): record id t1 under agent A, then update it to
agent B — the by-agent index still lists t1 under A although the stored
transaction's agent is B, so the index set does not equal the set of
stored ids whose field equals the key. -/
theorem tracker_index_stale_after_update_cex :
    "t1" ∈ indexIds (applyRecords [txA1, txA2]).byAgent "A" ∧
    alookup (applyRecords [txA1, txA2]).transactions "t1" = some txA2 ∧
    txA2.agentId = "B" := by
  decide

/-! ### Glob matcher lemmas (C9) -/

theorem globMatch_nil_nil : globMatch [] [] = true := by simp [globMatch]

theorem globMatch_nil_cons (d : Char) (ds : List Char) :
    globMatch [] (d :: ds) = false := by simp [globMatch]

theorem globMatch_star_nil (ps : List Char) :
    globMatch ('*' :: ps) [] = globMatch ps [] := by simp [globMatch]

theorem globMatch_star_cons (ps : List Char) (d : Char) (ds : List Char) :
    globMatch ('*' :: ps) (d :: ds) =
      (globMatch ps (d :: ds) || (!isLineTerm d && globMatch ('*' :: ps) ds)) := by
  simp [globMatch]

theorem globMatch_cons_nil (c : Char) (ps : List Char) (hc : c ≠ '*') :
    globMatch (c :: ps) [] = false := by
  simp [globMatch, hc]

theorem globMatch_que_cons (ps : List Char) (d : Char) (ds : List Char) :
    globMatch ('?' :: ps) (d :: ds) = (!isLineTerm d && globMatch ps ds) := by
  simp [globMatch, show ('?' : Char) ≠ '*' by decide]

theorem globMatch_lit_cons (c : Char) (ps : List Char) (d : Char) (ds : List Char)
    (hc : c ≠ '*') (hq : c ≠ '?') :
    globMatch (c :: ps) (d :: ds) = (decide (c = d) && globMatch ps ds) := by
  simp [globMatch, hc, hq]

theorem globMatch_iff_globSem (p v : List Char) : globMatch p v = true ↔ GlobSem p v := by
  induction p, v using globMatch.induct with
  | case1 =>
    exact ⟨fun _ => GlobSem.nil, fun _ => globMatch_nil_nil⟩
  | case2 h t =>
    rw [globMatch_nil_cons]
    constructor
    · intro hct
      exact absurd hct (by simp)
    · intro hg
      cases hg
  | case3 ps v ih1 ih2 =>
    cases v with
    | nil =>
        rw [globMatch_star_nil]
        constructor
        · intro h
          exact GlobSem.starSkip (ih1.mp h)
        · intro hg
          cases hg with
          | starSkip g => exact ih1.mpr g
    | cons d ds =>
        rw [globMatch_star_cons]
        simp only [Bool.or_eq_true, Bool.and_eq_true, Bool.not_eq_true']
        constructor
        · intro h
          rcases h with h | ⟨hlt, h⟩
          · exact GlobSem.starSkip (ih1.mp h)
          · exact GlobSem.starCons hlt (ih2.mp h)
        · intro hg
          cases hg with
          | lit hns hnq g => exact absurd rfl hns
          | starSkip g => exact Or.inl (ih1.mpr g)
          | starCons hlt g => exact Or.inr ⟨hlt, ih2.mpr g⟩
  | case4 c ps hc =>
    rw [globMatch_cons_nil c ps hc]
    constructor
    · intro h
      exact absurd h (by simp)
    · intro hg
      cases hg with
      | starSkip g => exact absurd rfl hc
  | case5 c ps hc d ds ih =>
    by_cases hq : c = '?'
    · subst hq
      rw [globMatch_que_cons]
      simp only [Bool.and_eq_true, Bool.not_eq_true']
      constructor
      · intro h
        exact GlobSem.one h.1 (ih.mp h.2)
      · intro hg
        cases hg with
        | lit hns hnq g => exact absurd rfl hnq
        | one hlt g => exact ⟨hlt, ih.mpr g⟩
    · rw [globMatch_lit_cons c ps d ds hc hq]
      simp only [Bool.and_eq_true, decide_eq_true_eq]
      constructor
      · intro h
        obtain ⟨he, h2⟩ := h
        subst he
        exact GlobSem.lit hc hq (ih.mp h2)
      · intro hg
        cases hg with
        | lit hns hnq g => exact ⟨rfl, ih.mpr g⟩
        | one hlt g => exact absurd rfl hq
        | starSkip g => exact absurd rfl hc
        | starCons hlt g => exact absurd rfl hc

/-- C9 (amended): `matchesGlob(s, s)` and `matchesGlob(s, "*")` are always
true via the fast paths, and in general a value matches a pattern
exactly when the pattern equals the value, is the bare star, or the
wildcard language accepts it — where `*` matches any run of zero or
more non-line-terminator characters, `?` exactly one non-line-terminator
character (the JS RegExp dot), and every other character, regex
metacharacters included, only itself. -/
theorem matchesGlob_semantics (value pattern : String) :
    matchesGlob value pattern = true ↔
      (pattern = value ∨ pattern = "*" ∨ GlobSem pattern.data value.data) := by
  unfold matchesGlob
  split_ifs with h1 h2
  · exact ⟨fun _ => Or.inl h1, fun _ => rfl⟩
  · exact ⟨fun _ => Or.inr (Or.inl h2), fun _ => rfl⟩
  · rw [globMatch_iff_globSem]
    constructor
    · intro hg
      exact Or.inr (Or.inr hg)
    · intro h
      rcases h with h | h | h
      · exact absurd h h1
      · exact absurd h h2
      · exact h

/-- C9 (counterexample): the claim says a bare line-feed is matched by
the one-character wildcard and by the star run, but the JS RegExp dot
excludes line terminators, so the code rejects both; the fast paths
still accept the identical string and the bare star pattern. -/
theorem matchesGlob_newline_cex :
    claimGlobMatch (String.data "a?b") (String.data "a\nb") = true ∧
    matchesGlob "a\nb" "a?b" = false ∧
    claimGlobMatch (String.data "a*b") (String.data "a\nb") = true ∧
    matchesGlob "a\nb" "a*b" = false ∧
    matchesGlob "a\nb" "a\nb" = true ∧
    matchesGlob "a\nb" "*" = true := by
  refine ⟨by simp [claimGlobMatch], ?_, by simp [claimGlobMatch], ?_, by simp [matchesGlob],
    by simp [matchesGlob]⟩
  · simp [matchesGlob, globMatch, isLineTerm]
  · simp [matchesGlob, globMatch, isLineTerm]

/-! ### Dispute Manager and Recovery Engine lemmas (C2, C10, C8) -/

theorem alookup_mem {α : Type} {l : List (String × α)} {k : String} {v : α}
    (h : alookup l k = some v) : (k, v) ∈ l := by
  induction l with
  | nil => simp [alookup] at h
  | cons kv rest ih =>
      rw [alookup] at h
      by_cases h1 : kv.1 = k
      · rw [if_pos h1] at h
        obtain ⟨k1, v1⟩ := kv
        simp only at h1 h
        rw [← h1, ← Option.some.inj h]
        exact List.mem_cons_self _ _
      · rw [if_neg h1] at h
        exact List.mem_cons_of_mem _ (ih h)

theorem mem_aset_of_ne {α : Type} {l : List (String × α)} {k2 : String} {v2 : α}
    (h : (k2, v2) ∈ l) (k : String) (v : α) (hne : k2 ≠ k) : (k2, v2) ∈ aset l k v := by
  induction l with
  | nil => simp at h
  | cons kv rest ih =>
      obtain ⟨k1, v1⟩ := kv
      simp only [aset]
      by_cases h4 : k1 = k
      · rw [if_pos h4]
        rcases List.mem_cons.mp h with heq | h3
        · cases heq
          exact absurd h4 hne
        · exact List.mem_cons_of_mem _ h3
      · rw [if_neg h4]
        rcases List.mem_cons.mp h with heq | h3
        · rw [heq]
          exact List.mem_cons_self _ _
        · exact List.mem_cons_of_mem _ (ih h3)

/-- C2 (amended): a closed dispute accepts no further evidence —
`addEvidence` throws before any mutation — but its status is not
frozen: `updateStatus` succeeds on it, replaces the status and reports
the previous one. -/
theorem closed_dispute_evidence_frozen_status_mutable
    (st : DisputeManagerState) (now id : String) (ev : DisputeEvidence) (d : DisputeCase)
    (hd : alookup st.disputes id = some d) (hc : isClosed d.status = true) :
    addEvidence st now id ev = .error ("Cannot add evidence to closed dispute " ++ id) ∧
    (∀ s2, updateStatus st now id s2 =
      .ok ({ st with disputes := aset st.disputes id (withStatus d s2 now) }, d.status)) ∧
    (∀ s2, ∃ st2, updateStatus st now id s2 = .ok (st2, d.status) ∧
      getDispute st2 id = some (withStatus d s2 now)) := by
  refine ⟨?_, ?_, ?_⟩
  · simp only [addEvidence, hd, hc, if_true]
    rfl
  · intro s2
    simp only [updateStatus, hd, withStatus]
    rfl
  · intro s2
    refine ⟨_, by simp only [updateStatus, hd, withStatus]; rfl, ?_⟩
    unfold getDispute
    exact alookup_aset_self st.disputes id _

/-- C2 (witness): the closed dispute d1 rejects new evidence. -/
theorem closed_dispute_evidence_frozen_status_mutable_witness :
    addEvidence stDisputes "2026-01-04T00:00:00.000Z" "d1" evidX =
      .error ("Cannot add evidence to closed dispute " ++ "d1") :=
  (closed_dispute_evidence_frozen_status_mutable stDisputes "2026-01-04T00:00:00.000Z"
    "d1" evidX disputeClosed (by decide) (by decide)).1

/-- C2 (counterexample): the claim also forbids status changes on closed
disputes, but `updateStatus` reopens the resolved dispute d1. -/
theorem updateStatus_changes_closed_dispute_cex :
    isClosed disputeClosed.status = true ∧
    updateStatus stDisputes "2026-01-04T00:00:00.000Z" "d1" .open_case =
      .ok (stReopened, .resolved_denied) := by
  exact ⟨by decide, rfl⟩

/-- C10: filing a dispute for a transaction whose indexed dispute is
closed succeeds and overwrites the per-transaction index, so
`getByTransaction` afterwards returns only the new dispute, while the
old one stays reachable through `get` and through `query`. -/
theorem file_after_closed_dispute (st : DisputeManagerState) (now newId : String)
    (input : FileDisputeInput) (oldId : String) (old : DisputeCase)
    (hidx : alookup st.byTransaction input.transactionId = some oldId)
    (hold : alookup st.disputes oldId = some old)
    (hclosed : isClosed old.status = true)
    (htx : old.transactionId = input.transactionId)
    (hne : newId ≠ oldId) :
    ∃ st2, fileDispute st now newId input = .ok (newDisputeOf now newId input, st2) ∧
      (newDisputeOf now newId input).id = newId ∧
      (newDisputeOf now newId input).status = .open_case ∧
      getByTransaction st2 input.transactionId = some (newDisputeOf now newId input) ∧
      getByTransaction st2 input.transactionId ≠ some old ∧
      getDispute st2 oldId = some old ∧
      old ∈ queryByTransaction st2 input.transactionId := by
  have hfile : fileDispute st now newId input = .ok (newDisputeOf now newId input,
      DisputeManagerState.mk (aset st.disputes newId (newDisputeOf now newId input))
        (aset st.byTransaction input.transactionId newId)
        (addToIndex st.byAgent input.agentId newId)) := by
    simp only [fileDispute, hidx, hold, hclosed, Bool.not_true, Bool.false_eq_true, if_false]
    rfl
  refine ⟨_, hfile, rfl, rfl, ?_, ?_, ?_, ?_⟩
  · unfold getByTransaction
    simp only [alookup_aset_self]
  · unfold getByTransaction
    simp only [alookup_aset_self]
    intro hcontra
    have h3 := Option.some.inj hcontra
    rw [← h3] at hclosed
    simp [newDisputeOf, isClosed] at hclosed
  · unfold getDispute
    rw [alookup_aset_ne _ _ _ _ (fun h2 => hne h2.symm), hold]
  · unfold queryByTransaction
    apply (List.perm_insertionSort _ _).mem_iff.mpr
    apply List.mem_filter.mpr
    refine ⟨List.mem_map.mpr ⟨(oldId, old), ?_, rfl⟩, by simp [htx]⟩
    exact mem_aset_of_ne (alookup_mem hold) newId _ (fun h2 => hne h2.symm)

/-- C10 (witness): filing dispute d2 on tx1 over the closed d1. -/
theorem file_after_closed_dispute_witness :
    ∃ st2, fileDispute stDisputes "2026-01-05T00:00:00.000Z" "d2" inputX =
      .ok (newDisputeOf "2026-01-05T00:00:00.000Z" "d2" inputX, st2) ∧
      (newDisputeOf "2026-01-05T00:00:00.000Z" "d2" inputX).id = "d2" ∧
      (newDisputeOf "2026-01-05T00:00:00.000Z" "d2" inputX).status = .open_case ∧
      getByTransaction st2 "tx1" =
        some (newDisputeOf "2026-01-05T00:00:00.000Z" "d2" inputX) ∧
      getByTransaction st2 "tx1" ≠ some disputeClosed ∧
      getDispute st2 "d1" = some disputeClosed ∧
      disputeClosed ∈ queryByTransaction st2 "tx1" :=
  file_after_closed_dispute stDisputes "2026-01-05T00:00:00.000Z" "d2" inputX "d1"
    disputeClosed (by decide) (by decide) (by decide) (by decide) (by decide)


theorem retryLoop_calls_pos (exec : Nat → ExecOutcome) (delay : Int) (maxR : Nat)
    (remaining attempt : Nat) (err : Option String) (h : 1 ≤ remaining) :
    1 ≤ (retryLoop exec delay maxR remaining attempt err).calls := by
  cases remaining with
  | zero => omega
  | succ r =>
      cases hex : exec attempt with
      | success rid => simp [retryLoop, hex]
      | failure e =>
          simp only [retryLoop, hex]
          split <;> simp
      | thrown m =>
          simp only [retryLoop, hex]
          split <;> simp

theorem retryLoop_spec (exec : Nat → ExecOutcome) (delay : Int) (maxR : Nat) :
    ∀ (remaining attempt : Nat) (err : Option String), remaining + attempt = maxR + 1 →
    (retryLoop exec delay maxR remaining attempt err).calls ≤ remaining ∧
    (retryLoop exec delay maxR remaining attempt err).waits =
      (List.range' attempt ((retryLoop exec delay maxR remaining attempt err).calls - 1)).map
        (fun i => delay * Int.ofNat i) ∧
    ((∀ i, attempt ≤ i → i ≤ maxR → (exec i).isSuccess = false) →
      (retryLoop exec delay maxR remaining attempt err).status = .failed ∧
      (retryLoop exec delay maxR remaining attempt err).calls = remaining) := by
  intro remaining
  induction remaining with
  | zero =>
      intro attempt err hinv
      refine ⟨by simp [retryLoop], by simp [retryLoop], fun _ => ⟨rfl, rfl⟩⟩
  | succ r ih =>
      intro attempt err hinv
      cases hex : exec attempt with
      | success rid =>
          refine ⟨by simp [retryLoop, hex], by simp [retryLoop, hex], ?_⟩
          intro hall
          have := hall attempt (le_refl _) (by omega)
          rw [hex] at this
          simp [ExecOutcome.isSuccess] at this
      | failure e =>
          obtain ⟨ihc, ihw, ihf⟩ := ih (attempt + 1) (some (failureMsg e)) (by omega)
          by_cases hlt : attempt < maxR
          · have h1 : 1 ≤ r := by omega
            have hpos := retryLoop_calls_pos exec delay maxR r (attempt + 1)
              (some (failureMsg e)) h1
            simp only [retryLoop, hex, if_pos hlt]
            refine ⟨by omega, ?_, ?_⟩
            · obtain ⟨c, hc⟩ : ∃ c, (retryLoop exec delay maxR r (attempt + 1)
                  (some (failureMsg e))).calls = c + 1 :=
                ⟨_, (Nat.succ_pred_eq_of_pos hpos).symm⟩
              rw [ihw, hc]
              simp only [Nat.add_sub_cancel, List.range'_succ, List.map_cons]
              rfl
            · intro hall
              obtain ⟨hst, hca⟩ := ihf (fun i h1 h2 => hall i (by omega) h2)
              exact ⟨hst, by omega⟩
          · have hr0 : r = 0 := by omega
            subst hr0
            simp only [retryLoop, hex, if_neg hlt]
            refine ⟨by simp [retryLoop], by simp [retryLoop], ?_⟩
            intro _
            simp [retryLoop]
      | thrown m =>
          obtain ⟨ihc, ihw, ihf⟩ := ih (attempt + 1) (some m) (by omega)
          by_cases hlt : attempt < maxR
          · have h1 : 1 ≤ r := by omega
            have hpos := retryLoop_calls_pos exec delay maxR r (attempt + 1) (some m) h1
            simp only [retryLoop, hex, if_pos hlt]
            refine ⟨by omega, ?_, ?_⟩
            · obtain ⟨c, hc⟩ : ∃ c, (retryLoop exec delay maxR r (attempt + 1) (some m)).calls
                  = c + 1 := ⟨_, (Nat.succ_pred_eq_of_pos hpos).symm⟩
              rw [ihw, hc]
              simp only [Nat.add_sub_cancel, List.range'_succ, List.map_cons]
              rfl
            · intro hall
              obtain ⟨hst, hca⟩ := ihf (fun i h1 h2 => hall i (by omega) h2)
              exact ⟨hst, by omega⟩
          · have hr0 : r = 0 := by omega
            subst hr0
            simp only [retryLoop, hex, if_neg hlt]
            refine ⟨by simp [retryLoop], by simp [retryLoop], ?_⟩
            intro _
            simp [retryLoop]

/-- C8: in one `processQueue` run each non-cancelled action runs through
`executeWithRetry` once, so its executor is called at most `maxRetries`
times; the waits performed are exactly `retryDelayMs * 1, ...,
retryDelayMs * (calls - 1)` — linear backoff between consecutive
attempts and none after the last — and when no attempt succeeds the
final status is `failed` after exactly `maxRetries` calls. -/
theorem executeWithRetry_discipline (exec : Nat → ExecOutcome) (delay : Int)
    (maxR : Nat) (queue : List QueuedAction) (execQ : String → Nat → ExecOutcome) :
    (executeWithRetry exec delay maxR).calls ≤ maxR ∧
    (executeWithRetry exec delay maxR).waits =
      (List.range' 1 ((executeWithRetry exec delay maxR).calls - 1)).map
        (fun i => delay * Int.ofNat i) ∧
    ((∀ i, 1 ≤ i → i ≤ maxR → (exec i).isSuccess = false) →
      (executeWithRetry exec delay maxR).status = .failed ∧
      (executeWithRetry exec delay maxR).calls = maxR) ∧
    (∀ pr ∈ processQueue queue execQ delay maxR,
      pr.2 = executeWithRetry (execQ pr.1) delay maxR ∧ pr.2.calls ≤ maxR) := by
  obtain ⟨hc, hw, hf⟩ := retryLoop_spec exec delay maxR maxR 1 none (by omega)
  refine ⟨hc, hw, fun hall => hf (fun i h1 h2 => hall i h1 h2), ?_⟩
  intro pr hpr
  obtain ⟨a, ha, rfl⟩ := List.mem_map.mp hpr
  obtain ⟨hc2, -, -⟩ := retryLoop_spec (execQ a.id) delay maxR maxR 1 none (by omega)
  exact ⟨rfl, hc2⟩

/-- C8 (witness): an executor failing on every attempt with maxRetries 3
ends `failed` after exactly 3 calls, and an executor succeeding on the
second attempt stops after 2 calls with one backoff wait of 5000 ms. -/
theorem executeWithRetry_discipline_witness :
    (executeWithRetry execNever 5000 3).status = .failed ∧
    (executeWithRetry execNever 5000 3).calls = 3 ∧
    (executeWithRetry execSecond 5000 3).waits =
      (List.range' 1 ((executeWithRetry execSecond 5000 3).calls - 1)).map
        (fun i => (5000 : Int) * Int.ofNat i) := by
  obtain ⟨hst, hca⟩ := (executeWithRetry_discipline execNever 5000 3 [] (fun _ => execNever)).2.2.1
    (fun i h1 h2 => rfl)
  exact ⟨hst, hca, (executeWithRetry_discipline execSecond 5000 3 [] (fun _ => execSecond)).2.1⟩


end PaySentry
